import Mathlib

/-!
Verification of the NodeDataFlowEditor graph registry and connection builder.

This file gives a shallow embedding of the registry core of the repository:

* `GraphRegistry` (utility/src/GraphRegistry.cpp): the node/group descriptor
  tables, per-orientation port → connection-list maps, the group-forwarding
  tables, and all mutation/query operations used by the claims.
* `NodeFactory::PortsAreCompatible` and
  `NodeFactory::createConnectionBetweenPorts` (factory/src/NodeFactory.cpp).
* The registry-visible effects of `GroupItem`'s constructor (`mirrorPorts`)
  and of `GroupItem::ungroup` (view/src/GroupItem.cpp).

Pointers (`NodeItem*`, `PortLabel*`, `ConnectionItem*`) are modelled as
natural-number identities; `QMap` is modelled as an association list with
unique keys (pointer ordering of a `QMap` is allocation dependent, so any
fixed order is a faithful choice); `QVector::push_back` is list append.
Attributes the modelled operations never mutate (port names, module names,
orientations, visibility, parent items, node names, the `NodeItem` port
lists) live in a read-only environment `Env`; everything the operations
mutate (the two descriptor tables, tag bitmasks, active flags, the
allocated connections) lives in the state `GState`.

`GraphRegistry::getConnections` and `GraphRegistry::hasConnection` recurse
through the forwarding tables and can diverge on cyclic forwarding, so they
are embedded with an explicit fuel parameter; the theorems about them carry
hypotheses under which the result is independent of any sufficiently large
fuel.
-/

/-- Port orientation, from `PortLabel::Orientation` (Input, Parameter, Output). -/
inductive POrient where
  | input
  | parameter
  | output
deriving DecidableEq

/-- Identity of a `NodeItem`/`GroupItem` (a pointer in the source). -/
abbrev ItemId := Nat

/-- Identity of a `PortLabel` (a pointer in the source). -/
abbrev PortId := Nat

/-- Identity of a `ConnectionItem` (a pointer in the source). -/
abbrev ConnId := Nat

/-- Read-only attributes of the scene: port attributes (`PortLabel` fields
that none of the modelled operations mutate), node names, the run-time-type
discriminant used by `dynamic_cast<GroupItem*>`, and each `NodeItem`'s own
`m_inputs`/`m_outputs`/parameter-port lists. -/
structure Env where
  portName : PortId → String
  portModule : PortId → String
  portOrient : PortId → POrient
  portVisible : PortId → Bool
  portParent : PortId → ItemId
  nodeName : ItemId → String
  isGroup : ItemId → Bool
  nodeInputs : ItemId → List PortId
  nodeOutputs : ItemId → List PortId
  nodeParams : ItemId → List PortId

/-- `PortLabel::isAnyInputPort`: orientation is Input or Parameter. -/
def isAnyInput (env : Env) (p : PortId) : Bool :=
  env.portOrient p == .input || env.portOrient p == .parameter

/-- `PortLabel::isInputPort`. -/
def isInput (env : Env) (p : PortId) : Bool :=
  env.portOrient p == .input

/-- `PortLabel::isOutputPort`. -/
def isOutput (env : Env) (p : PortId) : Bool :=
  env.portOrient p == .output

/-- `PortLabel::isParameterPort`. -/
def isParameter (env : Env) (p : PortId) : Bool :=
  env.portOrient p == .parameter

/-- The sink test written out in `NodeFactory::PortsAreCompatible`
(`getOrientation() == Parameter || getOrientation() == Input`). -/
def isSinkOriented (env : Env) (p : PortId) : Bool :=
  env.portOrient p == .parameter || env.portOrient p == .input

/-! ### Association lists (the embedding of `QMap`) -/

/-- First value stored under key `k`. (`QMap::value` / `QMap::find`.) -/
def alookup {β : Type} : List (Nat × β) → Nat → Option β
  | [], _ => none
  | (a, b) :: rest, k => if a = k then some b else alookup rest k

/-- `QMap::contains`. -/
def acontains {β : Type} (m : List (Nat × β)) (k : Nat) : Bool :=
  (alookup m k).isSome

/-- `QMap::operator[]` followed by a mutation: rewrite the value under `k`
with `f`, default-constructing `d` first when `k` is absent. -/
def aupdate {β : Type} : List (Nat × β) → Nat → (β → β) → β → List (Nat × β)
  | [], k, f, d => [(k, f d)]
  | (a, b) :: rest, k, f, d =>
    if a = k then (a, f b) :: rest else (a, b) :: aupdate rest k f d

/-- Mutate the value under `k` when present; no insertion otherwise. -/
def amodify {β : Type} : List (Nat × β) → Nat → (β → β) → List (Nat × β)
  | [], _, _ => []
  | (a, b) :: rest, k, f =>
    if a = k then (a, f b) :: rest else (a, b) :: amodify rest k f

/-- `QMap::remove`: drop the entry stored under `k`. -/
def aerase {β : Type} : List (Nat × β) → Nat → List (Nat × β)
  | [], _ => []
  | (a, b) :: rest, k =>
    if a = k then rest else (a, b) :: aerase rest k

/-- `map[k] = v` (`QMap::insert` semantics: replace or append). -/
def aset {β : Type} (m : List (Nat × β)) (k : Nat) (v : β) : List (Nat × β) :=
  aupdate m k (fun _ => v) v

/-- Value list under `k`, empty when absent (the
`if (mp.contains(k)) result += mp[k]` reading pattern). -/
def agetD {β : Type} (m : List (Nat × List β)) (k : Nat) : List β :=
  (alookup m k).getD []

theorem alookup_append_right {β : Type} {m : List (Nat × β)} {k : Nat}
    (h : alookup m k = none) (l : List (Nat × β)) :
    alookup (m ++ l) k = alookup l k := by
  induction m with
  | nil => rfl
  | cons e rest ih =>
    obtain ⟨a, b⟩ := e
    by_cases hk : a = k
    · simp [alookup, hk] at h
    · simp only [alookup, hk, if_neg hk, List.cons_append] at h ⊢
      exact ih h

theorem alookup_none_forall {β : Type} {m : List (Nat × β)} {k : Nat}
    (h : alookup m k = none) : ∀ e ∈ m, e.1 ≠ k := by
  induction m with
  | nil => intro e he; cases he
  | cons e rest ih =>
    obtain ⟨a, b⟩ := e
    by_cases hk : a = k
    · simp [alookup, hk] at h
    · intro x hx
      rcases List.mem_cons.mp hx with hx | hx
      · simpa [hx] using hk
      · simp only [alookup, if_neg hk] at h
        exact ih h x hx

theorem amodify_append_last {β : Type} {m : List (Nat × β)} {k : Nat}
    (h : alookup m k = none) (b : β) (f : β → β) :
    amodify (m ++ [(k, b)]) k f = m ++ [(k, f b)] := by
  induction m with
  | nil => simp [amodify]
  | cons e rest ih =>
    obtain ⟨a, c⟩ := e
    by_cases hk : a = k
    · simp [alookup, hk] at h
    · simp only [alookup, if_neg hk] at h
      simp [amodify, hk, ih h]

theorem aerase_append_last {β : Type} {m : List (Nat × β)} {k : Nat}
    (h : alookup m k = none) (b : β) :
    aerase (m ++ [(k, b)]) k = m := by
  induction m with
  | nil => simp [aerase]
  | cons e rest ih =>
    obtain ⟨a, c⟩ := e
    by_cases hk : a = k
    · simp [alookup, hk] at h
    · simp only [alookup, if_neg hk] at h
      simp [aerase, hk, ih h]

theorem alookup_amodify_self {β : Type} (m : List (Nat × β)) (k : Nat) (f : β → β) :
    alookup (amodify m k f) k = (alookup m k).map f := by
  induction m with
  | nil => rfl
  | cons e rest ih =>
    obtain ⟨a, b⟩ := e
    by_cases hk : a = k
    · simp [amodify, alookup, hk]
    · simp [amodify, alookup, hk, ih]

theorem alookup_amodify_other {β : Type} (m : List (Nat × β)) (k j : Nat)
    (f : β → β) (h : j ≠ k) :
    alookup (amodify m k f) j = alookup m j := by
  induction m with
  | nil => rfl
  | cons e rest ih =>
    obtain ⟨a, b⟩ := e
    by_cases hk : a = k
    · subst hk
      simp [amodify, alookup, (Ne.symm h)]
    · by_cases hj : a = j
      · subst hj
        simp [amodify, alookup, hk]
      · simp [amodify, alookup, hk, hj, ih]

/-! ### Descriptors and registry state -/

/-- `NodeDescriptor` (utility/include/utility/NodeDescriptor.hpp): unique id
plus the three per-orientation port → connection-list maps. The `node`
back-pointer of the source always equals the `m_nodes` key, so the key
carries it here. -/
structure NodeDescriptor where
  uid : Int
  inputsDescriptor : List (PortId × List ConnId)
  outputsDescriptor : List (PortId × List ConnId)
  parametersInputsDescriptor : List (PortId × List ConnId)
deriving DecidableEq

/-- `GroupDescriptor` (utility/include/utility/GroupDescriptor.hpp). Member
nodes are kept as their item identities (the source stores
`NodeDescriptor*`s looked up from the same table). -/
structure GroupDescriptor where
  uid : Int
  memberNodes : List ItemId
  forwardInputsDescriptor : List (PortId × List PortId)
  forwardOutputsDescriptor : List (PortId × List PortId)
  forwardParametersInputsDescriptor : List (PortId × List PortId)
deriving DecidableEq

/-- `ConnectionPort`-derived data held by a `ConnectionItem`: the input-side
and output-side (port name, module name) pairs plus the active flag. -/
structure ConnData where
  inName : String
  inModule : String
  outName : String
  outModule : String
  active : Bool
deriving DecidableEq

/-- Mutable state: `GraphRegistry`'s tables and id counters, every port's
tag bitmask (the `Taggable` state of each `PortLabel`), every node's active
flag, and the allocated `ConnectionItem`s. -/
structure GState where
  nodes : List (ItemId × NodeDescriptor)
  groups : List (ItemId × GroupDescriptor)
  nextNodeId : Int
  nextGroupId : Int
  tags : PortId → Nat
  nodeActive : ItemId → Bool
  conns : List (ConnId × ConnData)
  nextConnId : ConnId

/-- Binary digit fold behind `bitCount`; the first argument is an
iteration bound that makes the recursion structural. -/
def bitCountGo : Nat → Nat → Nat
  | 0, _ => 0
  | fuel + 1, m => if m = 0 then 0 else m % 2 + bitCountGo fuel (m / 2)

/-- Number of set bits of a bitmask (`QBitArray::count`, used by
`getTagBitMask().count()`): a number has at most as many binary digits as
its own value, so the value itself bounds the iteration. -/
def bitCount (n : Nat) : Nat :=
  bitCountGo n n

theorem bitCountGo_eq_zero_iff :
    ∀ fuel m, m ≤ fuel → (bitCountGo fuel m = 0 ↔ m = 0) := by
  intro fuel
  induction fuel with
  | zero =>
    intro m hm
    interval_cases m
    simp [bitCountGo]
  | succ f ih =>
    intro m hm
    by_cases h0 : m = 0
    · simp [bitCountGo, h0]
    · rw [bitCountGo, if_neg h0]
      constructor
      · intro h
        have h1 : m % 2 = 0 := Nat.eq_zero_of_add_eq_zero_right h
        have h2 : bitCountGo f (m / 2) = 0 := Nat.eq_zero_of_add_eq_zero_left h
        have hd : m / 2 < m := Nat.div_lt_self (Nat.pos_of_ne_zero h0) (by decide)
        have h3 := (ih (m / 2) (by omega)).mp h2
        omega
      · intro h
        exact absurd h h0

theorem bitCount_eq_zero_iff (n : Nat) : bitCount n = 0 ↔ n = 0 :=
  bitCountGo_eq_zero_iff n n (Nat.le_refl n)

/-- Modelled from the spec: `Taggable::haveSameTags` — `Taggable.hpp` is not
among the sources (only `TaggableTest.cpp` is). Per spec §3 "TagSet …
equals" and §4.3 step 6 ("Accept iff the two TagSets are exactly equal"),
and per the `EqualsTagSets` test, it is exact equality of the tag
bitmasks. -/
def haveSameTags (st : GState) (p q : PortId) : Bool :=
  st.tags p == st.tags q

/-- Modelled from the spec: `Taggable::copyTagsFrom` — the forward port's
bitmask becomes a copy of the concrete port's bitmask (spec §4.4
"copies the concrete port's TagSet onto the forward port", `CopyTags`
test). -/
def copyTagsFrom (st : GState) (dst src : PortId) : GState :=
  { st with tags := fun p => if p = dst then st.tags src else st.tags p }

/-! ### GraphRegistry operations -/

/-- `GraphRegistry::registerNode`: rejects `GroupItem`s with id -1,
returns the existing id for an already-registered node, otherwise inserts a
fresh descriptor under `m_nextNodeId++`. -/
def registerNode (env : Env) (st : GState) (n : ItemId) : Int × GState :=
  if env.isGroup n then (-1, st)
  else
    match alookup st.nodes n with
    | some d => (d.uid, st)
    | none =>
      let d : NodeDescriptor :=
        { uid := st.nextNodeId
          inputsDescriptor := []
          outputsDescriptor := []
          parametersInputsDescriptor := [] }
      (st.nextNodeId,
        { st with
          nodes := st.nodes ++ [(n, d)]
          nextNodeId := st.nextNodeId + 1 })

/-- `registerNode` as invoked from the `NodeItem` base-class constructor of
a `GroupItem` under construction: C++ gives `dynamic_cast<GroupItem*>` the
static base type during base-class construction, so the group check does
not fire there. -/
def registerNodeFromBaseCtor (st : GState) (n : ItemId) : Int × GState :=
  match alookup st.nodes n with
  | some d => (d.uid, st)
  | none =>
    let d : NodeDescriptor :=
      { uid := st.nextNodeId
        inputsDescriptor := []
        outputsDescriptor := []
        parametersInputsDescriptor := [] }
    (st.nextNodeId,
      { st with
        nodes := st.nodes ++ [(n, d)]
        nextNodeId := st.nextNodeId + 1 })

/-- `GraphRegistry::unregisterNode`. -/
def unregisterNode (env : Env) (st : GState) (n : ItemId) : GState :=
  if env.isGroup n then st
  else { st with nodes := aerase st.nodes n }

/-- `unregisterNode` as invoked from `~NodeItem` while destroying a
`GroupItem`: the dynamic type has already collapsed to `NodeItem`, so the
group check does not fire. -/
def unregisterNodeFromBaseDtor (st : GState) (n : ItemId) : GState :=
  { st with nodes := aerase st.nodes n }

/-- `GraphRegistry::registerInput`: only an Input-oriented port is written,
and only when the owner has a descriptor (`d->inputsDescriptor[p] = {}`). -/
def registerInput (env : Env) (st : GState) (n : ItemId) (p : PortId) : GState :=
  if isInput env p then
    match alookup st.nodes n with
    | some _ =>
      { st with
        nodes := amodify st.nodes n (fun d =>
          { d with inputsDescriptor := aset d.inputsDescriptor p [] }) }
    | none => st
  else st

/-- `GraphRegistry::registerOutput`. -/
def registerOutput (env : Env) (st : GState) (n : ItemId) (p : PortId) : GState :=
  if isOutput env p then
    match alookup st.nodes n with
    | some _ =>
      { st with
        nodes := amodify st.nodes n (fun d =>
          { d with outputsDescriptor := aset d.outputsDescriptor p [] }) }
    | none => st
  else st

/-- `GraphRegistry::registerParameter`. -/
def registerParameter (env : Env) (st : GState) (n : ItemId) (p : PortId) : GState :=
  if isParameter env p then
    match alookup st.nodes n with
    | some _ =>
      { st with
        nodes := amodify st.nodes n (fun d =>
          { d with parametersInputsDescriptor := aset d.parametersInputsDescriptor p [] }) }
    | none => st
  else st

/-- `GraphRegistry::findNode`: first registered node whose name matches. -/
def findNodeByName (env : Env) (st : GState) (name : String) :
    Option (ItemId × NodeDescriptor) :=
  st.nodes.find? (fun e => env.nodeName e.1 == name)

/-- `GraphRegistry::findGroup`. -/
def findGroupByName (env : Env) (st : GState) (name : String) :
    Option (ItemId × GroupDescriptor) :=
  st.groups.find? (fun e => env.nodeName e.1 == name)

/-- Owner resolution used by `registerConnection`: the named `NodeItem` if a
node descriptor matches, else the named `GroupItem`. -/
def resolveOwner (env : Env) (st : GState) (name : String) : Option ItemId :=
  match findNodeByName env st name with
  | some e => some e.1
  | none =>
    match findGroupByName env st name with
    | some e => some e.1
    | none => none

/-- `map[key].push_back(c)` on a port → connection-list map. -/
def pushConn (m : List (PortId × List ConnId)) (p : PortId) (c : ConnId) :
    List (PortId × List ConnId) :=
  aupdate m p (fun l => l ++ [c]) []

/-- `map[key].push_back(actual)` on a forwarding table. -/
def pushFwd (m : List (PortId × List PortId)) (f a : PortId) :
    List (PortId × List PortId) :=
  aupdate m f (fun l => l ++ [a]) []

/-- `GraphRegistry::registerConnection` (GraphRegistry.cpp:170-219),
including its asymmetric classification: when `from` is not an
input/parameter port, `to` is taken as the in-side port without any
orientation check. -/
def registerConnection (env : Env) (st : GState) (fromP toP : PortId)
    (c : ConnId) : GState :=
  let inPort : PortId := if isAnyInput env fromP then fromP else toP
  let outPort : Option PortId :=
    if isAnyInput env fromP then
      (if isOutput env toP then some toP else none)
    else
      (if isOutput env fromP then some fromP else none)
  match outPort with
  | none => st
  | some outP =>
    match resolveOwner env st (env.portModule outP),
        resolveOwner env st (env.portModule inPort) with
    | some outNode, some inNode =>
      let st1 :=
        match alookup st.nodes outNode with
        | some _ =>
          { st with
            nodes := amodify st.nodes outNode (fun d =>
              { d with outputsDescriptor := pushConn d.outputsDescriptor outP c }) }
        | none => st
      match alookup st1.nodes inNode with
      | some _ =>
        { st1 with
          nodes := amodify st1.nodes inNode (fun d =>
            { d with inputsDescriptor := pushConn d.inputsDescriptor inPort c }) }
      | none => st1
    | _, _ => st

/-- `GraphRegistry::registerGroup`: insert the group descriptor, then (the
"workaround" in the source) drop any plain-node descriptor for the same
item. -/
def registerGroup (st : GState) (g : ItemId) : Int × GState :=
  match alookup st.groups g with
  | some d => (d.uid, st)
  | none =>
    let d : GroupDescriptor :=
      { uid := st.nextGroupId
        memberNodes := []
        forwardInputsDescriptor := []
        forwardOutputsDescriptor := []
        forwardParametersInputsDescriptor := [] }
    let st1 :=
      { st with
        groups := st.groups ++ [(g, d)]
        nextGroupId := st.nextGroupId + 1 }
    (st.nextGroupId, { st1 with nodes := aerase st1.nodes g })

/-- `GraphRegistry::unregisterGroup`. -/
def unregisterGroup (st : GState) (g : ItemId) : GState :=
  { st with groups := aerase st.groups g }

/-- `GraphRegistry::registerForwardInput`: append the concrete port under
the forward port and copy the concrete port's tags onto the forward
port. -/
def registerForwardInput (st : GState) (g : ItemId) (forward actual : PortId) :
    GState :=
  match alookup st.groups g with
  | none => st
  | some _ =>
    copyTagsFrom
      { st with
        groups := amodify st.groups g (fun gd =>
          { gd with forwardInputsDescriptor := pushFwd gd.forwardInputsDescriptor forward actual }) }
      forward actual

/-- `GraphRegistry::registerForwardOutput`. -/
def registerForwardOutput (st : GState) (g : ItemId) (forward actual : PortId) :
    GState :=
  match alookup st.groups g with
  | none => st
  | some _ =>
    copyTagsFrom
      { st with
        groups := amodify st.groups g (fun gd =>
          { gd with forwardOutputsDescriptor := pushFwd gd.forwardOutputsDescriptor forward actual }) }
      forward actual

/-- `GraphRegistry::registerForwardParameter`. -/
def registerForwardParameter (st : GState) (g : ItemId) (forward actual : PortId) :
    GState :=
  match alookup st.groups g with
  | none => st
  | some _ =>
    copyTagsFrom
      { st with
        groups := amodify st.groups g (fun gd =>
          { gd with forwardParametersInputsDescriptor := pushFwd gd.forwardParametersInputsDescriptor forward actual }) }
      forward actual

/-- `GraphRegistry::unregisterForwardPort`: remove `forward` as a key from
all three forwarding tables of `g`'s descriptor. -/
def unregisterForwardPort (st : GState) (g : ItemId) (forward : PortId) : GState :=
  match alookup st.groups g with
  | none => st
  | some _ =>
    { st with
      groups := amodify st.groups g (fun gd =>
        { gd with
          forwardInputsDescriptor := aerase gd.forwardInputsDescriptor forward
          forwardOutputsDescriptor := aerase gd.forwardOutputsDescriptor forward
          forwardParametersInputsDescriptor :=
            aerase gd.forwardParametersInputsDescriptor forward }) }

/-- `GraphRegistry::getAllForwardedPortsFromAPort`: concatenate, over every
group descriptor, the lists stored under `forwardPort` in the three
forwarding tables. -/
def getAllForwardedPortsFromAPort (st : GState) (forwardPort : PortId) :
    List PortId :=
  st.groups.flatMap (fun e =>
    agetD e.2.forwardInputsDescriptor forwardPort ++
    agetD e.2.forwardOutputsDescriptor forwardPort ++
    agetD e.2.forwardParametersInputsDescriptor forwardPort)

/-! ### Query operations (fuelled where the source recurses) -/

/-- `GraphRegistry::getConnections` (GraphRegistry.cpp:591-629) together
with `getConnectionsFromGroupPort` (647-680), which it tail-calls when no
registered node's name matches the port's module name. The group branch
recursively calls `getConnections` on each forwarded concrete port, hence
the fuel. -/
def getConnections (env : Env) : Nat → GState → PortId → List ConnId
  | 0, _, _ => []
  | fuel + 1, st, port =>
    match findNodeByName env st (env.portModule port) with
    | some e =>
      match alookup st.nodes e.1 with
      | none => []
      | some nd =>
        agetD nd.inputsDescriptor port ++
        agetD nd.outputsDescriptor port ++
        agetD nd.parametersInputsDescriptor port
    | none =>
      st.groups.flatMap (fun g =>
        (agetD g.2.forwardInputsDescriptor port ++
         agetD g.2.forwardOutputsDescriptor port ++
         agetD g.2.forwardParametersInputsDescriptor port).flatMap
          (getConnections env fuel st))

/-- `GraphRegistry::hasConnection` (GraphRegistry.cpp:631-645): recurse over
every port the argument forwards to, then fall back to the port's own
connection list. -/
def hasConnection (env : Env) : Nat → GState → PortId → Bool
  | 0, _, _ => false
  | fuel + 1, st, port =>
    (getAllForwardedPortsFromAPort st port).any (hasConnection env fuel st) ||
      !(getConnections env (fuel + 1) st port).isEmpty

/-- `GraphRegistry::findConnection`: scan the port's connections for one
whose far (input-side for an output port, output-side for an input port)
endpoint matches the given port and module names. -/
def findConnection (env : Env) (fuel : Nat) (st : GState) (fromPort : PortId)
    (portName moduleName : String) : Option ConnId :=
  (getConnections env fuel st fromPort).find? (fun c =>
    match alookup st.conns c with
    | none => false
    | some cd =>
      if isAnyInput env fromPort then
        cd.outName == portName && cd.outModule == moduleName
      else
        cd.inName == portName && cd.inModule == moduleName)

/-- `GraphRegistry::hasConnectionTo(PortLabel&, QString, QString)`. -/
def hasConnectionToNamed (env : Env) (fuel : Nat) (st : GState)
    (fromPort : PortId) (portName moduleName : String) : Bool :=
  (findConnection env fuel st fromPort portName moduleName).isSome

/-- `GraphRegistry::hasConnectionTo(PortLabel&, PortLabel&)`: classify the
two ports into an in-side and an out-side port, then defer to the named
variant. -/
def hasConnectionTo (env : Env) (fuel : Nat) (st : GState)
    (fromPort toPort : PortId) : Bool :=
  let inP : Option PortId :=
    if isAnyInput env fromPort then some fromPort
    else if isAnyInput env toPort then some toPort
    else none
  let outP : Option PortId :=
    if isOutput env fromPort then some fromPort
    else if isOutput env toPort then some toPort
    else none
  match inP, outP with
  | some i, some o =>
    hasConnectionToNamed env fuel st i (env.portName o) (env.portModule o)
  | _, _ => false

/-- `GraphRegistry::isNodeActive`. -/
def isNodeActive (st : GState) (n : ItemId) : Bool :=
  st.nodeActive n

/-- `NodeItem::setActive` on the node `n`. -/
def setNodeActive (st : GState) (n : ItemId) (b : Bool) : GState :=
  { st with nodeActive := fun i => if i = n then b else st.nodeActive i }

/-- `ConnectionItem::setIsActive` on connection `c`. -/
def setConnActive (st : GState) (c : ConnId) (b : Bool) : GState :=
  { st with conns := amodify st.conns c (fun cd => { cd with active := b }) }

/-- `GraphRegistry::activateNode` (GraphRegistry.cpp:735-746): set the
node's flag, then set the flag of every connection of every port in the
node's own `outputs()` list. -/
def activateNode (env : Env) (fuel : Nat) (st : GState) (n : ItemId) : GState :=
  (env.nodeOutputs n).foldl
    (fun s p => (getConnections env fuel s p).foldl
      (fun s2 c => setConnActive s2 c true) s)
    (setNodeActive st n true)

/-- `GraphRegistry::deactivateNode` (GraphRegistry.cpp:748-759). -/
def deactivateNode (env : Env) (fuel : Nat) (st : GState) (n : ItemId) : GState :=
  (env.nodeOutputs n).foldl
    (fun s p => (getConnections env fuel s p).foldl
      (fun s2 c => setConnActive s2 c false) s)
    (setNodeActive st n false)

/-! ### NodeFactory: compatibility and connection building -/

/-- `NodeFactory::PortsAreCompatible` (NodeFactory.cpp:37-68): the chain of
early rejections followed by the exact-tag-equality acceptance. -/
def PortsAreCompatible (env : Env) (fuel : Nat) (st : GState)
    (port1 port2 : PortId) : Bool :=
  if !(env.portVisible port1) || !(env.portVisible port2) then false
  else if env.portParent port1 == env.portParent port2 then false
  else if (isAnyInput env port1 && isAnyInput env port2) ||
      (isOutput env port1 && isOutput env port2) then false
  else if bitCount (st.tags port1) == 0 || bitCount (st.tags port2) == 0 then false
  else if isSinkOriented env port1 && hasConnection env fuel st port1 then false
  else if isSinkOriented env port2 && hasConnection env fuel st port2 then false
  else haveSameTags st port1 port2

/-- `PortLabel::getConnectionPortData` (name, module, isInput flag). -/
def connPortData (env : Env) (p : PortId) : String × String × Bool :=
  (env.portName p, env.portModule p, isAnyInput env p)

/-- `ConnectionItem::addPort`: store the data on the input side when the
port is an input, else on the output side. -/
def connAddPort (cd : ConnData) (d : String × String × Bool) : ConnData :=
  if d.2.2 then { cd with inName := d.1, inModule := d.2.1 }
  else { cd with outName := d.1, outModule := d.2.1 }

/-- The `ConnectionItem(port1, port2)` constructor: default data
(`m_isActive = false`), then `addPort` twice. -/
def mkConnData (env : Env) (fromP toP : PortId) : ConnData :=
  connAddPort
    (connAddPort
      { inName := "", inModule := "", outName := "", outModule := "", active := false }
      (connPortData env fromP))
    (connPortData env toP)

/-- One-level forward-port resolution in
`NodeFactory::createConnectionBetweenPorts`: the first forwarded concrete
port whose `<moduleName>_<portName>` matches the forward port's name,
else the port itself. -/
def resolveConcrete (env : Env) (st : GState) (port : PortId) : PortId :=
  match (getAllForwardedPortsFromAPort st port).find?
      (fun p => (env.portModule p ++ "_" ++ env.portName p) == env.portName port) with
  | some p => p
  | none => port

/-- `NodeFactory::createConnectionBetweenPorts` (NodeFactory.cpp:255-330):
compatibility check, duplicate check, one-level forward resolution,
`ConnectionItem` allocation and `registerConnection`. The remaining body
(parameter-widget enable state, `nodeMoved` geometry refresh) touches no
registry state and is therefore not part of the state transition. -/
def createConnectionBetweenPorts (env : Env) (fuel : Nat) (st : GState)
    (fromPort toPort : PortId) : Option ConnId × GState :=
  if !(PortsAreCompatible env fuel st fromPort toPort) then (none, st)
  else if hasConnectionTo env fuel st fromPort toPort then (none, st)
  else
    let concreteFrom := resolveConcrete env st fromPort
    let concreteTo := resolveConcrete env st toPort
    let c := st.nextConnId
    let st1 :=
      { st with
        conns := st.conns ++ [(c, mkConnData env concreteFrom concreteTo)]
        nextConnId := c + 1 }
    (some c, registerConnection env st1 concreteFrom concreteTo c)

/-! ### Group lifecycle (GroupItem constructor and ungroup) -/

/-- Direction of one forwarding registration issued while mirroring. -/
inductive FwdKind where
  | finput
  | foutput
  | fparam
deriving DecidableEq

/-- Dispatch to the three `registerForward*` operations. -/
def registerForward (st : GState) (k : FwdKind) (g : ItemId)
    (forward actual : PortId) : GState :=
  match k with
  | .finput => registerForwardInput st g forward actual
  | .foutput => registerForwardOutput st g forward actual
  | .fparam => registerForwardParameter st g forward actual

/-- The forwarding table a given kind writes. -/
def fwdTableOf (gd : GroupDescriptor) (k : FwdKind) : List (PortId × List PortId) :=
  match k with
  | .finput => gd.forwardInputsDescriptor
  | .foutput => gd.forwardOutputsDescriptor
  | .fparam => gd.forwardParametersInputsDescriptor

/-- The registry call `NodeItem::addInput`/`addOutput`/`addParameter` makes
for a freshly created group port (`registerInput` etc. on the group item;
a no-op in practice because the group has no plain-node descriptor). -/
def registerPortOnOwner (env : Env) (st : GState) (k : FwdKind) (owner : ItemId)
    (p : PortId) : GState :=
  match k with
  | .finput => registerInput env st owner p
  | .foutput => registerOutput env st owner p
  | .fparam => registerParameter env st owner p

/-- The registry-visible effect of constructing a `GroupItem` over member
nodes: the `NodeItem` base constructor registers the item as a plain node
(the dynamic type is not yet `GroupItem` there), the `GroupItem` body calls
`registerGroup`, and `mirrorPorts`/`mirrorParams` then create one forward
port per mirrored concrete port (`addInput`/`addOutput`/`addParameter` on
the group followed by `registerForward*`). `mirrors` lists the
(kind, forward port, concrete port) registrations in program order. -/
def groupCreate (env : Env) (st : GState) (g : ItemId)
    (mirrors : List (FwdKind × PortId × PortId)) : GState :=
  let st1 := (registerNodeFromBaseCtor st g).2
  let st2 := (registerGroup st1 g).2
  mirrors.foldl
    (fun s m => registerForward (registerPortOnOwner env s m.1 g m.2.1) m.1 g m.2.1 m.2.2)
    st2

/-- The registry-visible effect of `GroupItem::ungroup`
(GroupItem.cpp:240-278) followed by the deletion it schedules with
`deleteLater()`: for every member node's input/output/parameter port `p`
the method calls `unregisterForwardPort(this, p)` (note: `p` is a concrete
member port, while the forwarding tables are keyed by the group's forward
ports), and the scheduled destruction then runs `~GroupItem` →
`unregisterGroup` and `~NodeItem` → `unregisterNode` (the latter with the
dynamic type already collapsed to `NodeItem`). -/
def ungroup (env : Env) (st : GState) (g : ItemId) (members : List ItemId) :
    GState :=
  let st1 := members.foldl
    (fun s n =>
      ((env.nodeInputs n ++ env.nodeOutputs n) ++ env.nodeParams n).foldl
        (fun s2 p => unregisterForwardPort s2 g p) s)
    st
  unregisterNodeFromBaseDtor (unregisterGroup st1 g) g

/-! ### Reachable registry states (for the node/group key-disjointness
invariant) -/

/-- One registry operation, as a step relation on states. `ctorNode` is
`registerNode` called from a `NodeItem` base constructor: the item under
construction cannot already be a registered group, which the side
condition records. `group` carries the side condition that `registerGroup`
is only ever called on a `GroupItem`. -/
inductive RegStep (env : Env) : GState → GState → Prop where
  | node (st : GState) (n : ItemId) : RegStep env st (registerNode env st n).2
  | ctorNode (st : GState) (n : ItemId) (h : alookup st.groups n = none) :
      RegStep env st (registerNodeFromBaseCtor st n).2
  | unnode (st : GState) (n : ItemId) : RegStep env st (unregisterNode env st n)
  | group (st : GState) (g : ItemId) (h : env.isGroup g = true) :
      RegStep env st (registerGroup st g).2
  | ungroupStep (st : GState) (g : ItemId) : RegStep env st (unregisterGroup st g)
  | input (st : GState) (n : ItemId) (p : PortId) :
      RegStep env st (registerInput env st n p)
  | output (st : GState) (n : ItemId) (p : PortId) :
      RegStep env st (registerOutput env st n p)
  | param (st : GState) (n : ItemId) (p : PortId) :
      RegStep env st (registerParameter env st n p)
  | connection (st : GState) (fromP toP : PortId) (c : ConnId) :
      RegStep env st (registerConnection env st fromP toP c)
  | fwd (st : GState) (k : FwdKind) (g : ItemId) (f a : PortId) :
      RegStep env st (registerForward st k g f a)
  | unfwd (st : GState) (g : ItemId) (f : PortId) :
      RegStep env st (unregisterForwardPort st g f)
  | activate (st : GState) (fuel : Nat) (n : ItemId) :
      RegStep env st (activateNode env fuel st n)
  | deactivate (st : GState) (fuel : Nat) (n : ItemId) :
      RegStep env st (deactivateNode env fuel st n)
  | create (st : GState) (fuel : Nat) (p q : PortId) :
      RegStep env st (createConnectionBetweenPorts env fuel st p q).2

/-- The empty registry (`GraphRegistry`'s constructed state; id counters
start at 1 per the header initialisers). -/
def initialState : GState :=
  { nodes := []
    groups := []
    nextNodeId := 1
    nextGroupId := 1
    tags := fun _ => 0
    nodeActive := fun _ => false
    conns := []
    nextConnId := 0 }

/-- States reachable from the empty registry by registry operations. -/
inductive Reachable (env : Env) : GState → Prop where
  | init : Reachable env initialState
  | step {st st2 : GState} : Reachable env st → RegStep env st st2 → Reachable env st2

/-! ### C1: symmetry and exact tag equality of PortsAreCompatible -/

theorem bool_ext {a b : Bool} (h : a = true ↔ b = true) : a = b := by
  cases a <;> cases b <;> simp_all

theorem portsAreCompatible_true_iff (env : Env) (fuel : Nat) (st : GState)
    (p q : PortId) :
    PortsAreCompatible env fuel st p q = true ↔
      (env.portVisible p = true ∧ env.portVisible q = true ∧
       env.portParent p ≠ env.portParent q ∧
       ¬((isAnyInput env p = true ∧ isAnyInput env q = true) ∨
         (isOutput env p = true ∧ isOutput env q = true)) ∧
       st.tags p ≠ 0 ∧ st.tags q ≠ 0 ∧
       ¬(isSinkOriented env p = true ∧ hasConnection env fuel st p = true) ∧
       ¬(isSinkOriented env q = true ∧ hasConnection env fuel st q = true) ∧
       st.tags p = st.tags q) := by
  unfold PortsAreCompatible
  split_ifs with h1 h2 h3 h4 h5 h6 <;> constructor <;> intro h <;>
    simp_all [haveSameTags, bitCount_eq_zero_iff]

/-- C1: `NodeFactory::PortsAreCompatible` is symmetric in its two port
arguments, and it returns true only when the two ports' tag bitmasks are
exactly equal — so a port tagged with a strict subset of another port's
tags (e.g. only Int versus Int and Float) is never compatible with it. -/
theorem c1_portsAreCompatible_symm_exact_tags (env : Env) (fuel : Nat)
    (st : GState) (p q : PortId) :
    PortsAreCompatible env fuel st p q = PortsAreCompatible env fuel st q p ∧
      (PortsAreCompatible env fuel st p q = true → st.tags p = st.tags q) := by
  constructor
  · apply bool_ext
    rw [portsAreCompatible_true_iff, portsAreCompatible_true_iff]
    constructor <;> rintro ⟨a1, a2, a3, a4, a5, a6, a7, a8, a9⟩ <;>
      exact ⟨a2, a1, fun hh => a3 hh.symm,
        fun hh => a4 (hh.imp And.symm And.symm), a6, a5, a8, a7, a9.symm⟩
  · intro h
    exact ((portsAreCompatible_true_iff env fuel st p q).mp h).2.2.2.2.2.2.2.2

/-- Environment for the C1/C2/C6 witnesses: node 1 ("A") owns input port 10
("i") and node 2 ("B") owns output port 20 ("o"); group item 5 owns forward
port 30 ("B_o"). -/
def envW : Env :=
  { portName := fun p => if p = 10 then "i" else if p = 20 then "o" else if p = 30 then "B_o" else ""
    portModule := fun p => if p = 10 then "A" else if p = 20 then "B" else if p = 30 then "G" else ""
    portOrient := fun p => if p = 10 then .input else .output
    portVisible := fun _ => true
    portParent := fun p => if p = 10 then 1 else if p = 20 then 2 else 5
    nodeName := fun n => if n = 1 then "A" else if n = 2 then "B" else if n = 5 then "G" else ""
    isGroup := fun n => n == 5
    nodeInputs := fun n => if n = 1 then [10] else []
    nodeOutputs := fun n => if n = 2 then [20] else []
    nodeParams := fun _ => [] }

/-- State for the C1 witness: empty registry, every port tagged with bit 0. -/
def stW1 : GState :=
  { initialState with tags := fun _ => 1 }

/-- Witness for C1: on a concrete compatible pair (input port 10 of node
"A" against output port 20 of node "B", equal nonempty tag sets) the
theorem applies and yields the tag equality. -/
theorem c1_witness : stW1.tags 10 = stW1.tags 20 :=
  (c1_portsAreCompatible_symm_exact_tags envW 1 stW1 10 20).2 (by decide)

/-! ### C2: sinks are single-assignment in createConnectionBetweenPorts -/

/-- C2: when a sink port `p` (Input or Parameter orientation) already has a
registered connection, any `createConnectionBetweenPorts` call with `p` as
either endpoint returns no connection and leaves the registry state — in
particular `p`'s connection list — exactly as it was. -/
theorem c2_sink_single_assignment (env : Env) (fuel : Nat) (st : GState)
    (p x y : PortId)
    (hsink : isSinkOriented env p = true)
    (hconn : hasConnection env fuel st p = true)
    (hxy : x = p ∨ y = p) :
    createConnectionBetweenPorts env fuel st x y = (none, st) ∧
      getConnections env fuel (createConnectionBetweenPorts env fuel st x y).2 p =
        getConnections env fuel st p := by
  have hcompat : PortsAreCompatible env fuel st x y = false := by
    rw [Bool.eq_false_iff, Ne, portsAreCompatible_true_iff]
    rintro ⟨-, -, -, -, -, -, h7, h8, -⟩
    rcases hxy with rfl | rfl
    · exact h7 ⟨hsink, hconn⟩
    · exact h8 ⟨hsink, hconn⟩
  have hmain : createConnectionBetweenPorts env fuel st x y = (none, st) := by
    unfold createConnectionBetweenPorts
    rw [hcompat]
    simp
  exact ⟨hmain, by rw [hmain]⟩

/-- State for the C2 witness: input port 10 of node "A" is already
connected to output port 20 of node "B" by connection 100. -/
def stW2 : GState :=
  { nodes :=
      [(1, { uid := 1
             inputsDescriptor := [(10, [100])]
             outputsDescriptor := []
             parametersInputsDescriptor := [] }),
       (2, { uid := 2
             inputsDescriptor := []
             outputsDescriptor := [(20, [100])]
             parametersInputsDescriptor := [] })]
    groups := []
    nextNodeId := 3
    nextGroupId := 1
    tags := fun _ => 1
    nodeActive := fun _ => false
    conns := [(100, { inName := "i", inModule := "A", outName := "o", outModule := "B", active := true })]
    nextConnId := 101 }

/-- Witness for C2: retrying a connection into the already-connected input
port 10 returns no connection and the state is untouched. -/
theorem c2_witness :
    createConnectionBetweenPorts envW 1 stW2 20 10 = (none, stW2) :=
  (c2_sink_single_assignment envW 1 stW2 10 20 10 (by decide) (by decide)
    (Or.inr rfl)).1

/-! ### C3: registerNode is idempotent and ids are fresh and distinct -/

/-- `GraphRegistry::allNodes`: the descriptor list. -/
def allNodes (st : GState) : List NodeDescriptor :=
  st.nodes.map Prod.snd

/-- The freshly constructed `NodeDescriptor` of `registerNode`. -/
def blankDesc (uid : Int) : NodeDescriptor :=
  { uid := uid
    inputsDescriptor := []
    outputsDescriptor := []
    parametersInputsDescriptor := [] }

/-- Well-formedness of the node table: every stored id is below the
`m_nextNodeId` counter, and entries have pairwise distinct keys and
pairwise distinct ids. -/
def NodesInv (st : GState) : Prop :=
  (∀ e ∈ st.nodes, e.2.uid < st.nextNodeId) ∧
    st.nodes.Pairwise (fun a b => a.1 ≠ b.1 ∧ a.2.uid ≠ b.2.uid)

/-- C3: for a non-group item, registering twice returns the same id both
times, the second call leaves the registry (hence the `allNodes` count)
unchanged, a first registration hands out an id no registered node holds,
and the distinct-ids invariant is preserved. -/
theorem c3_registerNode_idempotent_fresh (env : Env) (st : GState) (n : ItemId)
    (hg : env.isGroup n = false) (hinv : NodesInv st) :
    (registerNode env (registerNode env st n).2 n).1 = (registerNode env st n).1 ∧
    (registerNode env (registerNode env st n).2 n).2 = (registerNode env st n).2 ∧
    (allNodes (registerNode env (registerNode env st n).2 n).2).length =
      (allNodes (registerNode env st n).2).length ∧
    (alookup st.nodes n = none →
      (registerNode env st n).1 = st.nextNodeId ∧
      ∀ e ∈ st.nodes, e.2.uid ≠ (registerNode env st n).1) ∧
    NodesInv (registerNode env st n).2 := by
  cases hl : alookup st.nodes n with
  | some d =>
    have h1 : registerNode env st n = (d.uid, st) := by
      unfold registerNode
      rw [hl]
      simp [hg]
    refine ⟨by simp [h1], by simp [h1], by simp [h1], ?_, ?_⟩
    · intro hnone
      exact absurd hnone (by simp [hl])
    · rw [h1]
      exact hinv
  | none =>
    have h1 : registerNode env st n =
        (st.nextNodeId,
          { st with
            nodes := st.nodes ++ [(n, blankDesc st.nextNodeId)]
            nextNodeId := st.nextNodeId + 1 }) := by
      unfold registerNode
      rw [hl]
      simp [hg]
      rfl
    have hl2 : alookup (st.nodes ++ [(n, blankDesc st.nextNodeId)]) n =
        some (blankDesc st.nextNodeId) := by
      rw [alookup_append_right hl]
      simp [alookup]
    have h2 : registerNode env
        ({ st with
           nodes := st.nodes ++ [(n, blankDesc st.nextNodeId)]
           nextNodeId := st.nextNodeId + 1 }) n =
        (st.nextNodeId,
          { st with
            nodes := st.nodes ++ [(n, blankDesc st.nextNodeId)]
            nextNodeId := st.nextNodeId + 1 }) := by
      unfold registerNode
      simp only [hg, Bool.false_eq_true, if_false, hl2]
      simp [blankDesc]
    rw [h1]
    refine ⟨by rw [h2], by rw [h2], by rw [h2], ?_, ?_⟩
    · intro _
      refine ⟨rfl, ?_⟩
      intro e he
      exact ne_of_lt (hinv.1 e he)
    · constructor
      · intro e he
        show e.2.uid < st.nextNodeId + 1
        rcases List.mem_append.mp he with he | he
        · exact lt_trans (hinv.1 e he) (by omega)
        · rcases List.mem_singleton.mp he with rfl
          show (blankDesc st.nextNodeId).uid < st.nextNodeId + 1
          simp [blankDesc]
      · rw [List.pairwise_append]
        refine ⟨hinv.2, List.pairwise_singleton _ _, ?_⟩
        intro a ha b hb
        rcases List.mem_singleton.mp hb with rfl
        exact ⟨alookup_none_forall hl a ha, ne_of_lt (hinv.1 a ha)⟩

/-- Witness for C3: registering node 1 twice from the empty registry
returns the same id both times. -/
theorem c3_witness :
    (registerNode envW (registerNode envW initialState 1).2 1).1 =
      (registerNode envW initialState 1).1 :=
  (c3_registerNode_idempotent_fresh envW initialState 1 (by decide)
    ⟨fun e he => absurd he (List.not_mem_nil e), List.Pairwise.nil⟩).1

/-! ### C8: wrong-orientation port registration is a complete no-op -/

/-- C8: a port whose orientation does not match the registration call
(`registerInput` on a non-Input port, `registerOutput` on a non-Output
port, `registerParameter` on a non-Parameter port) is rejected without any
write: the whole registry state, in particular every per-orientation port
map of every node descriptor, is unchanged. -/
theorem c8_wrong_orientation_noop (env : Env) (st : GState) (n : ItemId)
    (p : PortId) :
    (isInput env p = false → registerInput env st n p = st) ∧
    (isOutput env p = false → registerOutput env st n p = st) ∧
    (isParameter env p = false → registerParameter env st n p = st) := by
  refine ⟨?_, ?_, ?_⟩ <;> intro h
  · simp [registerInput, h]
  · simp [registerOutput, h]
  · simp [registerParameter, h]

/-- Witness for C8: registering the Input-oriented port 10 through
`registerOutput` leaves the concrete state `stW2` untouched. -/
theorem c8_witness : registerOutput envW stW2 1 10 = stW2 :=
  (c8_wrong_orientation_noop envW stW2 1 10).2.1 (by decide)

/-! ### C9: activation cascades to output-side connections only -/

theorem getConnections_congr (env : Env) (fuel : Nat) {s t : GState}
    (hn : s.nodes = t.nodes) (hg : s.groups = t.groups) :
    ∀ p, getConnections env fuel s p = getConnections env fuel t p := by
  induction fuel with
  | zero => intro p; rfl
  | succ f ih =>
    intro p
    have hrec : getConnections env f s = getConnections env f t := funext ih
    unfold getConnections
    unfold findNodeByName
    rw [hn, hg, hrec]

/-- Fold `setIsActive` over a list of connections. -/
def setConnList (st : GState) (b : Bool) (L : List ConnId) : GState :=
  L.foldl (fun s c => setConnActive s c b) st

theorem setConnList_nodes (st : GState) (b : Bool) (L : List ConnId) :
    (setConnList st b L).nodes = st.nodes := by
  induction L generalizing st with
  | nil => rfl
  | cons a L ih => exact ih _

theorem setConnList_groups (st : GState) (b : Bool) (L : List ConnId) :
    (setConnList st b L).groups = st.groups := by
  induction L generalizing st with
  | nil => rfl
  | cons a L ih => exact ih _

theorem setConnList_tags (st : GState) (b : Bool) (L : List ConnId) :
    (setConnList st b L).tags = st.tags := by
  induction L generalizing st with
  | nil => rfl
  | cons a L ih => exact ih _

theorem setConnList_nodeActive (st : GState) (b : Bool) (L : List ConnId) :
    (setConnList st b L).nodeActive = st.nodeActive := by
  induction L generalizing st with
  | nil => rfl
  | cons a L ih => exact ih _

theorem setConnList_counters (st : GState) (b : Bool) (L : List ConnId) :
    (setConnList st b L).nextNodeId = st.nextNodeId ∧
    (setConnList st b L).nextGroupId = st.nextGroupId ∧
    (setConnList st b L).nextConnId = st.nextConnId := by
  induction L generalizing st with
  | nil => exact ⟨rfl, rfl, rfl⟩
  | cons a L ih => exact ih _

theorem setConnList_lookup_not_mem (st : GState) (b : Bool) (L : List ConnId)
    (c : ConnId) (hc : c ∉ L) :
    alookup (setConnList st b L).conns c = alookup st.conns c := by
  induction L generalizing st with
  | nil => rfl
  | cons a L ih =>
    have hca : c ≠ a := fun h => hc (h ▸ List.mem_cons_self a L)
    have hcl : c ∉ L := fun h => hc (List.mem_cons_of_mem a h)
    rw [show setConnList st b (a :: L) = setConnList (setConnActive st a b) b L from rfl]
    rw [ih _ hcl]
    exact alookup_amodify_other _ _ _ _ hca

theorem setConnList_lookup_mem (st : GState) (b : Bool) (L : List ConnId)
    (c : ConnId) (hc : c ∈ L) :
    alookup (setConnList st b L).conns c =
      (alookup st.conns c).map (fun cd => { cd with active := b }) := by
  induction L generalizing st with
  | nil => cases hc
  | cons a L ih =>
    rw [show setConnList st b (a :: L) = setConnList (setConnActive st a b) b L from rfl]
    by_cases hcl : c ∈ L
    · rw [ih _ hcl]
      by_cases hca : c = a
      · subst hca
        show ((alookup (amodify st.conns c _) c)).map _ = _
        rw [alookup_amodify_self]
        cases alookup st.conns c <;> rfl
      · show ((alookup (amodify st.conns a _) c)).map _ = _
        rw [alookup_amodify_other _ _ _ _ hca]
    · have hca : c = a := by
        rcases List.mem_cons.mp hc with h | h
        · exact h
        · exact absurd h hcl
      subst hca
      rw [setConnList_lookup_not_mem _ _ _ _ hcl]
      show alookup (amodify st.conns c _) c = _
      rw [alookup_amodify_self]

theorem foldConn_eq_setConnList (env : Env) (fuel : Nat) (b : Bool)
    (ports : List PortId) (st : GState) :
    ports.foldl
      (fun s p => (getConnections env fuel s p).foldl
        (fun s2 c => setConnActive s2 c b) s) st =
    setConnList st b (ports.flatMap (getConnections env fuel st)) := by
  induction ports generalizing st with
  | nil => rfl
  | cons p ports ih =>
    rw [List.foldl_cons, List.flatMap_cons]
    rw [show ((getConnections env fuel st p).foldl
        (fun s2 c => setConnActive s2 c b) st) = setConnList st b (getConnections env fuel st p) from rfl]
    rw [ih (setConnList st b (getConnections env fuel st p))]
    have hcong := getConnections_congr env fuel
      (setConnList_nodes st b (getConnections env fuel st p))
      (setConnList_groups st b (getConnections env fuel st p))
    rw [congrArg ports.flatMap (funext hcong)]
    unfold setConnList
    rw [List.foldl_append]

/-- C9: `activateNode` (resp. `deactivateNode`) sets the node's own active
flag and the active flag of every connection registered on the node's
Output ports, and changes nothing else: other nodes' flags, every
connection not reached through an output port (in particular one attached
only to Input/Parameter ports), the descriptor tables, and the tag state
are all untouched. -/
theorem c9_activation_cascades_outputs_only (env : Env) (fuel : Nat)
    (st : GState) (n : ItemId) :
    (activateNode env fuel st n).nodeActive n = true ∧
    (deactivateNode env fuel st n).nodeActive n = false ∧
    (∀ m, m ≠ n →
      (activateNode env fuel st n).nodeActive m = st.nodeActive m ∧
      (deactivateNode env fuel st n).nodeActive m = st.nodeActive m) ∧
    (∀ c, c ∈ (env.nodeOutputs n).flatMap (getConnections env fuel st) →
      alookup (activateNode env fuel st n).conns c =
        (alookup st.conns c).map (fun cd => { cd with active := true }) ∧
      alookup (deactivateNode env fuel st n).conns c =
        (alookup st.conns c).map (fun cd => { cd with active := false })) ∧
    (∀ c, c ∉ (env.nodeOutputs n).flatMap (getConnections env fuel st) →
      alookup (activateNode env fuel st n).conns c = alookup st.conns c ∧
      alookup (deactivateNode env fuel st n).conns c = alookup st.conns c) ∧
    (activateNode env fuel st n).nodes = st.nodes ∧
    (activateNode env fuel st n).groups = st.groups ∧
    (activateNode env fuel st n).tags = st.tags ∧
    (deactivateNode env fuel st n).nodes = st.nodes ∧
    (deactivateNode env fuel st n).groups = st.groups ∧
    (deactivateNode env fuel st n).tags = st.tags := by
  have hgcA : ∀ q, getConnections env fuel (setNodeActive st n true) q =
      getConnections env fuel st q :=
    getConnections_congr env fuel rfl rfl
  have hgcD : ∀ q, getConnections env fuel (setNodeActive st n false) q =
      getConnections env fuel st q :=
    getConnections_congr env fuel rfl rfl
  have hA : activateNode env fuel st n =
      setConnList (setNodeActive st n true) true
        ((env.nodeOutputs n).flatMap (getConnections env fuel st)) := by
    unfold activateNode
    rw [foldConn_eq_setConnList]
    rw [congrArg (env.nodeOutputs n).flatMap (funext hgcA)]
  have hD : deactivateNode env fuel st n =
      setConnList (setNodeActive st n false) false
        ((env.nodeOutputs n).flatMap (getConnections env fuel st)) := by
    unfold deactivateNode
    rw [foldConn_eq_setConnList]
    rw [congrArg (env.nodeOutputs n).flatMap (funext hgcD)]
  rw [hA, hD]
  refine ⟨?_, ?_, ?_, ?_, ?_, ?_, ?_, ?_, ?_, ?_, ?_⟩
  · rw [setConnList_nodeActive]
    simp [setNodeActive]
  · rw [setConnList_nodeActive]
    simp [setNodeActive]
  · intro m hm
    rw [setConnList_nodeActive, setConnList_nodeActive]
    simp [setNodeActive, hm]
  · intro c hc
    exact ⟨setConnList_lookup_mem _ _ _ _ hc, setConnList_lookup_mem _ _ _ _ hc⟩
  · intro c hc
    exact ⟨setConnList_lookup_not_mem _ _ _ _ hc, setConnList_lookup_not_mem _ _ _ _ hc⟩
  · rw [setConnList_nodes]
    rfl
  · rw [setConnList_groups]
    rfl
  · rw [setConnList_tags]
    rfl
  · rw [setConnList_nodes]
    rfl
  · rw [setConnList_groups]
    rfl
  · rw [setConnList_tags]
    rfl

/-- Witness for C9: activating node 2 in the concrete state `stW2` does not
change node 1's active flag. -/
theorem c9_witness :
    (activateNode envW 1 stW2 2).nodeActive 1 = stW2.nodeActive 1 :=
  ((c9_activation_cascades_outputs_only envW 1 stW2 2).2.2.1 1 (by decide)).1

/-! ### C7: forward registration appends in order; the forward port carries
the last-registered concrete port's tags -/

theorem alookup_aupdate_self {β : Type} (m : List (Nat × β)) (k : Nat)
    (f : β → β) (d : β) :
    alookup (aupdate m k f d) k = some (f ((alookup m k).getD d)) := by
  induction m with
  | nil => simp [aupdate, alookup]
  | cons e rest ih =>
    obtain ⟨a, b⟩ := e
    by_cases hk : a = k
    · simp [aupdate, alookup, hk]
    · simp [aupdate, alookup, hk, ih]

theorem agetD_pushFwd_self (m : List (PortId × List PortId)) (f a : PortId) :
    agetD (pushFwd m f a) f = agetD m f ++ [a] := by
  unfold agetD pushFwd
  rw [alookup_aupdate_self]
  rfl

/-- The rewrite `registerForward` applies to the owning group's
descriptor. -/
def gdPush (gd : GroupDescriptor) (k : FwdKind) (f a : PortId) : GroupDescriptor :=
  match k with
  | .finput => { gd with forwardInputsDescriptor := pushFwd gd.forwardInputsDescriptor f a }
  | .foutput => { gd with forwardOutputsDescriptor := pushFwd gd.forwardOutputsDescriptor f a }
  | .fparam => { gd with forwardParametersInputsDescriptor := pushFwd gd.forwardParametersInputsDescriptor f a }

theorem fwdTableOf_gdPush_self (gd : GroupDescriptor) (k : FwdKind) (f a : PortId) :
    fwdTableOf (gdPush gd k f a) k = pushFwd (fwdTableOf gd k) f a := by
  cases k <;> rfl

theorem registerForward_eq (st : GState) (k : FwdKind) (g : ItemId)
    (f a : PortId) (gd : GroupDescriptor) (hg : alookup st.groups g = some gd) :
    registerForward st k g f a =
      copyTagsFrom
        { st with groups := amodify st.groups g (fun x => gdPush x k f a) } f a := by
  cases k <;>
    simp [registerForward, registerForwardInput, registerForwardOutput,
      registerForwardParameter, hg, gdPush]

theorem fold_registerForward (k : FwdKind) (g : ItemId) (f : PortId) :
    ∀ (cs : List PortId) (st : GState) (gd : GroupDescriptor),
      alookup st.groups g = some gd → f ∉ cs →
      ∃ gd2,
        alookup (cs.foldl (fun s c => registerForward s k g f c) st).groups g =
          some gd2 ∧
        agetD (fwdTableOf gd2 k) f = agetD (fwdTableOf gd k) f ++ cs ∧
        (∀ x, x ≠ f →
          (cs.foldl (fun s c => registerForward s k g f c) st).tags x = st.tags x) ∧
        ((cs.foldl (fun s c => registerForward s k g f c) st).tags f =
          match cs.getLast? with
          | none => st.tags f
          | some clast => st.tags clast) := by
  intro cs
  induction cs with
  | nil =>
    intro st gd hg _
    exact ⟨gd, hg, by simp, fun x _ => rfl, rfl⟩
  | cons c cs ih =>
    intro st gd hg hf
    have hfc : f ≠ c := fun h => hf (h ▸ List.mem_cons_self c cs)
    have hfcs : f ∉ cs := fun h => hf (List.mem_cons_of_mem c h)
    rw [List.foldl_cons]
    have hstep := registerForward_eq st k g f c gd hg
    have hg1 : alookup (registerForward st k g f c).groups g = some (gdPush gd k f c) := by
      rw [hstep]
      show alookup (amodify st.groups g (fun x => gdPush x k f c)) g = _
      rw [alookup_amodify_self, hg]
      rfl
    obtain ⟨gd2, hgd2, hval, htagsOff, htagsF⟩ :=
      ih (registerForward st k g f c) (gdPush gd k f c) hg1 hfcs
    refine ⟨gd2, hgd2, ?_, ?_, ?_⟩
    · rw [hval, fwdTableOf_gdPush_self, agetD_pushFwd_self]
      simp
    · intro x hx
      rw [htagsOff x hx, hstep]
      show (if x = f then st.tags c else st.tags x) = st.tags x
      rw [if_neg hx]
    · rw [htagsF]
      cases hlast : cs.getLast? with
      | none =>
        have : cs = [] := List.getLast?_eq_none_iff.mp hlast
        subst this
        show _ = st.tags c
        rw [hstep]
        show (if f = f then st.tags c else st.tags f) = st.tags c
        rw [if_pos rfl]
      | some clast =>
        have hmem : clast ∈ cs := by
          obtain ⟨hne, heq⟩ := List.mem_getLast?_eq_getLast (l := cs) hlast
          exact heq ▸ List.getLast_mem hne
        have hne : clast ≠ f := fun h => hfcs (h ▸ hmem)
        have hcons : (c :: cs).getLast? = some clast := by
          rw [List.getLast?_cons]
          simp [hlast]
        rw [hcons]
        show (registerForward st k g f c).tags clast = st.tags clast
        rw [hstep]
        show (if clast = f then st.tags c else st.tags clast) = st.tags clast
        rw [if_neg hne]

/-- C7: starting from a registered group `g` whose `k`-direction forwarding
table has no entry for the forward port `f`, a sequence of
`registerForwardInput`/`Output`/`Parameter` calls for concrete ports
`c1, …, ck` leaves the list stored under `f` equal to `[c1, …, ck]` in
registration order, and `f`'s tag bitmask equal to (a copy of, not a union
with) the last-registered concrete port's bitmask. -/
theorem c7_registerForward_appends_and_copies_last_tags (st : GState)
    (k : FwdKind) (g : ItemId) (f : PortId) (cs : List PortId)
    (gd : GroupDescriptor)
    (hg : alookup st.groups g = some gd)
    (hfresh : agetD (fwdTableOf gd k) f = [])
    (hf : f ∉ cs) :
    ∃ gd2,
      alookup (cs.foldl (fun s c => registerForward s k g f c) st).groups g =
        some gd2 ∧
      agetD (fwdTableOf gd2 k) f = cs ∧
      (∀ clast, cs.getLast? = some clast →
        (cs.foldl (fun s c => registerForward s k g f c) st).tags f =
          st.tags clast) := by
  obtain ⟨gd2, hgd2, hval, _, htagsF⟩ := fold_registerForward k g f cs st gd hg hf
  refine ⟨gd2, hgd2, ?_, ?_⟩
  · rw [hval, hfresh]
    rfl
  · intro clast hlast
    rw [htagsF, hlast]

/-- Group descriptor for the C7 witness: group 5 with empty tables. -/
def gdW : GroupDescriptor :=
  { uid := 1
    memberNodes := []
    forwardInputsDescriptor := []
    forwardOutputsDescriptor := []
    forwardParametersInputsDescriptor := [] }

/-- State for the C7 witness: only group 5 is registered; ports 10 and 20
carry distinct tag bitmasks 1 and 2. -/
def stW7 : GState :=
  { nodes := []
    groups := [(5, gdW)]
    nextNodeId := 1
    nextGroupId := 2
    tags := fun p => if p = 10 then 1 else if p = 20 then 2 else 0
    nodeActive := fun _ => false
    conns := []
    nextConnId := 0 }

/-- Witness for C7: forwarding ports 10 then 20 under forward port 30 of
group 5 yields the list [10, 20] and copies port 20's tags onto 30. -/
theorem c7_witness :
    ∃ gd2,
      alookup (([10, 20].foldl
        (fun s c => registerForward s FwdKind.finput 5 30 c) stW7)).groups 5 =
        some gd2 ∧
      agetD (fwdTableOf gd2 FwdKind.finput) 30 = [10, 20] ∧
      (∀ clast, ([10, 20] : List PortId).getLast? = some clast →
        ([10, 20].foldl
          (fun s c => registerForward s FwdKind.finput 5 30 c) stW7).tags 30 =
          stW7.tags clast) :=
  c7_registerForward_appends_and_copies_last_tags stW7 FwdKind.finput 5 30
    [10, 20] gdW (by decide) (by decide) (by decide)

/-! ### C10: the node table and the group table never share a key -/

theorem keys_amodify {β : Type} (m : List (Nat × β)) (k : Nat) (f : β → β) :
    (amodify m k f).map Prod.fst = m.map Prod.fst := by
  induction m with
  | nil => rfl
  | cons e rest ih =>
    obtain ⟨a, b⟩ := e
    by_cases hk : a = k <;> simp [amodify, hk, ih]

theorem keys_aerase {β : Type} (m : List (Nat × β)) (k : Nat) :
    (aerase m k).map Prod.fst = (m.map Prod.fst).erase k := by
  induction m with
  | nil => rfl
  | cons e rest ih =>
    obtain ⟨a, b⟩ := e
    by_cases hk : a = k
    · subst hk
      simp [aerase, List.erase_cons_head]
    · simp [aerase, hk, ih, List.erase_cons_tail, bne_iff_ne, Ne, hk]

theorem alookup_eq_none_iff {β : Type} (m : List (Nat × β)) (k : Nat) :
    alookup m k = none ↔ k ∉ m.map Prod.fst := by
  induction m with
  | nil => simp [alookup]
  | cons e rest ih =>
    obtain ⟨a, b⟩ := e
    by_cases hk : a = k
    · subst hk
      simp [alookup]
    · simp [alookup, hk, ih, Ne.symm hk]

/-- The freshly constructed `GroupDescriptor` of `registerGroup`. -/
def blankGroupDesc (uid : Int) : GroupDescriptor :=
  { uid := uid
    memberNodes := []
    forwardInputsDescriptor := []
    forwardOutputsDescriptor := []
    forwardParametersInputsDescriptor := [] }

/-- The node/group key-separation invariant: every group key is a
`GroupItem`, the two key sets are disjoint, and each table has no
duplicate keys. -/
def TablesInv (env : Env) (st : GState) : Prop :=
  (∀ i ∈ st.groups.map Prod.fst, env.isGroup i = true) ∧
  (∀ i ∈ st.nodes.map Prod.fst, i ∉ st.groups.map Prod.fst) ∧
  (st.nodes.map Prod.fst).Nodup ∧
  (st.groups.map Prod.fst).Nodup

theorem registerConnection_keys (env : Env) (st : GState) (a b : PortId)
    (c : ConnId) :
    (registerConnection env st a b c).nodes.map Prod.fst = st.nodes.map Prod.fst ∧
    (registerConnection env st a b c).groups = st.groups := by
  unfold registerConnection
  dsimp only
  split
  · exact ⟨rfl, rfl⟩
  · split
    · split
      · split
        · constructor
          · show (amodify (amodify st.nodes _ _) _ _).map Prod.fst = _
            rw [keys_amodify, keys_amodify]
          · rfl
        · show (amodify st.nodes _ _).map Prod.fst = _ ∧ _
          rw [keys_amodify]
          exact ⟨rfl, rfl⟩
      · split
        · constructor
          · show (amodify st.nodes _ _).map Prod.fst = _
            rw [keys_amodify]
          · rfl
        · exact ⟨rfl, rfl⟩
    · exact ⟨rfl, rfl⟩

theorem registerForward_frame (st : GState) (k : FwdKind) (g : ItemId)
    (f a : PortId) :
    (registerForward st k g f a).nodes = st.nodes ∧
    (registerForward st k g f a).groups.map Prod.fst = st.groups.map Prod.fst := by
  cases hg : alookup st.groups g with
  | none =>
    cases k <;>
      simp [registerForward, registerForwardInput, registerForwardOutput,
        registerForwardParameter, hg]
  | some gd =>
    rw [registerForward_eq st k g f a gd hg]
    constructor
    · rfl
    · show (amodify st.groups g _).map Prod.fst = _
      rw [keys_amodify]

theorem unregisterForwardPort_frame (st : GState) (g : ItemId) (f : PortId) :
    (unregisterForwardPort st g f).nodes = st.nodes ∧
    (unregisterForwardPort st g f).groups.map Prod.fst = st.groups.map Prod.fst := by
  unfold unregisterForwardPort
  cases hg : alookup st.groups g with
  | none => exact ⟨rfl, rfl⟩
  | some gd =>
    constructor
    · rfl
    · show (amodify st.groups g _).map Prod.fst = _
      rw [keys_amodify]

theorem registerPortOps_keys (env : Env) (st : GState) (n : ItemId) (p : PortId) :
    (registerInput env st n p).nodes.map Prod.fst = st.nodes.map Prod.fst ∧
    (registerInput env st n p).groups = st.groups ∧
    (registerOutput env st n p).nodes.map Prod.fst = st.nodes.map Prod.fst ∧
    (registerOutput env st n p).groups = st.groups ∧
    (registerParameter env st n p).nodes.map Prod.fst = st.nodes.map Prod.fst ∧
    (registerParameter env st n p).groups = st.groups := by
  unfold registerInput registerOutput registerParameter
  refine ⟨?_, ?_, ?_, ?_, ?_, ?_⟩ <;>
    (split <;>
      first
        | rfl
        | (split <;>
            first
              | (show (amodify st.nodes _ _).map Prod.fst = _
                 rw [keys_amodify])
              | rfl))

theorem createConnection_keys (env : Env) (fuel : Nat) (st : GState)
    (p q : PortId) :
    (createConnectionBetweenPorts env fuel st p q).2.nodes.map Prod.fst =
      st.nodes.map Prod.fst ∧
    (createConnectionBetweenPorts env fuel st p q).2.groups = st.groups := by
  unfold createConnectionBetweenPorts
  dsimp only
  split
  · exact ⟨rfl, rfl⟩
  · split
    · exact ⟨rfl, rfl⟩
    · exact registerConnection_keys env _ _ _ _

theorem activateNode_tables (env : Env) (fuel : Nat) (st : GState) (n : ItemId) :
    (activateNode env fuel st n).nodes = st.nodes ∧
    (activateNode env fuel st n).groups = st.groups := by
  unfold activateNode
  rw [foldConn_eq_setConnList]
  exact ⟨setConnList_nodes _ _ _, setConnList_groups _ _ _⟩

theorem deactivateNode_tables (env : Env) (fuel : Nat) (st : GState) (n : ItemId) :
    (deactivateNode env fuel st n).nodes = st.nodes ∧
    (deactivateNode env fuel st n).groups = st.groups := by
  unfold deactivateNode
  rw [foldConn_eq_setConnList]
  exact ⟨setConnList_nodes _ _ _, setConnList_groups _ _ _⟩

theorem tablesInv_of_keys (env : Env) {st st2 : GState}
    (hn : st2.nodes.map Prod.fst = st.nodes.map Prod.fst)
    (hg : st2.groups.map Prod.fst = st.groups.map Prod.fst)
    (hinv : TablesInv env st) : TablesInv env st2 := by
  obtain ⟨h1, h2, h3, h4⟩ := hinv
  exact ⟨by rw [hg]; exact h1, by rw [hn, hg]; exact h2, by rw [hn]; exact h3,
    by rw [hg]; exact h4⟩

theorem alookup_some_mem_keys {β : Type} {m : List (Nat × β)} {k : Nat} {d : β}
    (h : alookup m k = some d) : k ∈ m.map Prod.fst := by
  induction m with
  | nil => cases h
  | cons e rest ih =>
    obtain ⟨a, b⟩ := e
    by_cases hk : a = k
    · subst hk
      exact List.mem_cons_self _ _
    · simp only [alookup, if_neg hk] at h
      exact List.mem_cons_of_mem _ (ih h)

theorem tablesInv_step (env : Env) {st st2 : GState} (hstep : RegStep env st st2)
    (hinv : TablesInv env st) : TablesInv env st2 := by
  obtain ⟨h1, h2, h3, h4⟩ := hinv
  cases hstep with
  | node n =>
    by_cases hgp : env.isGroup n
    · have h : registerNode env st n = (-1, st) := by
        unfold registerNode
        rw [hgp]
        rfl
      rw [h]
      exact ⟨h1, h2, h3, h4⟩
    · cases hl : alookup st.nodes n with
      | some d =>
        have h : registerNode env st n = (d.uid, st) := by
          unfold registerNode
          rw [hl]
          simp [hgp]
        rw [h]
        exact ⟨h1, h2, h3, h4⟩
      | none =>
        have h : registerNode env st n =
            (st.nextNodeId,
              { st with
                nodes := st.nodes ++ [(n, blankDesc st.nextNodeId)]
                nextNodeId := st.nextNodeId + 1 }) := by
          unfold registerNode
          rw [hl]
          simp [hgp]
          rfl
        rw [h]
        refine ⟨h1, ?_, ?_, h4⟩
        · intro i hi
          have hi2 : i ∈ (st.nodes ++ [(n, blankDesc st.nextNodeId)]).map Prod.fst := hi
          simp only [List.map_append, List.map_cons, List.map_nil,
            List.mem_append, List.mem_singleton] at hi2
          show i ∉ st.groups.map Prod.fst
          rcases hi2 with hi2 | rfl
          · exact h2 i hi2
          · intro hmem
            rw [h1 i hmem] at hgp
            exact hgp rfl
        · show ((st.nodes ++ [(n, blankDesc st.nextNodeId)]).map Prod.fst).Nodup
          rw [List.map_append, List.nodup_append]
          refine ⟨h3, List.nodup_singleton _, ?_⟩
          intro x hx hx2
          simp only [List.map_cons, List.map_nil, List.mem_singleton] at hx2
          subst hx2
          exact (alookup_eq_none_iff _ _).mp hl hx
  | ctorNode n hno =>
    cases hl : alookup st.nodes n with
    | some d =>
      have h : registerNodeFromBaseCtor st n = (d.uid, st) := by
        unfold registerNodeFromBaseCtor
        rw [hl]
      rw [h]
      exact ⟨h1, h2, h3, h4⟩
    | none =>
      have h : registerNodeFromBaseCtor st n =
          (st.nextNodeId,
            { st with
              nodes := st.nodes ++ [(n, blankDesc st.nextNodeId)]
              nextNodeId := st.nextNodeId + 1 }) := by
        unfold registerNodeFromBaseCtor
        rw [hl]
        rfl
      rw [h]
      refine ⟨h1, ?_, ?_, h4⟩
      · intro i hi
        have hi2 : i ∈ (st.nodes ++ [(n, blankDesc st.nextNodeId)]).map Prod.fst := hi
        simp only [List.map_append, List.map_cons, List.map_nil,
          List.mem_append, List.mem_singleton] at hi2
        show i ∉ st.groups.map Prod.fst
        rcases hi2 with hi2 | rfl
        · exact h2 i hi2
        · exact (alookup_eq_none_iff _ _).mp hno
      · show ((st.nodes ++ [(n, blankDesc st.nextNodeId)]).map Prod.fst).Nodup
        rw [List.map_append, List.nodup_append]
        refine ⟨h3, List.nodup_singleton _, ?_⟩
        intro x hx hx2
        simp only [List.map_cons, List.map_nil, List.mem_singleton] at hx2
        subst hx2
        exact (alookup_eq_none_iff _ _).mp hl hx
  | unnode n =>
    by_cases hgp : env.isGroup n
    · have h : unregisterNode env st n = st := by
        unfold unregisterNode
        rw [hgp]
        rfl
      rw [h]
      exact ⟨h1, h2, h3, h4⟩
    · have h : unregisterNode env st n = { st with nodes := aerase st.nodes n } := by
        unfold unregisterNode
        simp [hgp]
      rw [h]
      refine ⟨h1, ?_, ?_, h4⟩
      · intro i hi
        have hi2 : i ∈ (aerase st.nodes n).map Prod.fst := hi
        rw [keys_aerase] at hi2
        exact h2 i (List.mem_of_mem_erase hi2)
      · show ((aerase st.nodes n).map Prod.fst).Nodup
        rw [keys_aerase]
        exact h3.erase n
  | group g hgp =>
    cases hl : alookup st.groups g with
    | some d =>
      have h : registerGroup st g = (d.uid, st) := by
        unfold registerGroup
        rw [hl]
      rw [h]
      exact ⟨h1, h2, h3, h4⟩
    | none =>
      have h : (registerGroup st g).2 =
          { st with
            groups := st.groups ++ [(g, blankGroupDesc st.nextGroupId)]
            nextGroupId := st.nextGroupId + 1
            nodes := aerase st.nodes g } := by
        unfold registerGroup
        rw [hl]
        rfl
      rw [h]
      have hnotg : g ∉ st.groups.map Prod.fst := (alookup_eq_none_iff _ _).mp hl
      refine ⟨?_, ?_, ?_, ?_⟩
      · intro i hi
        have hi2 : i ∈ (st.groups ++ [(g, blankGroupDesc st.nextGroupId)]).map Prod.fst := hi
        simp only [List.map_append, List.map_cons, List.map_nil,
          List.mem_append, List.mem_singleton] at hi2
        rcases hi2 with hi2 | rfl
        · exact h1 i hi2
        · exact hgp
      · intro i hi
        have hi2 : i ∈ (aerase st.nodes g).map Prod.fst := hi
        rw [keys_aerase] at hi2
        show i ∉ (st.groups ++ [(g, blankGroupDesc st.nextGroupId)]).map Prod.fst
        simp only [List.map_append, List.map_cons, List.map_nil,
          List.mem_append, List.mem_singleton]
        rintro (hcon | rfl)
        · exact h2 i (List.mem_of_mem_erase hi2) hcon
        · exact (h3.mem_erase_iff.mp hi2).1 rfl
      · show ((aerase st.nodes g).map Prod.fst).Nodup
        rw [keys_aerase]
        exact h3.erase g
      · show ((st.groups ++ [(g, blankGroupDesc st.nextGroupId)]).map Prod.fst).Nodup
        rw [List.map_append, List.nodup_append]
        refine ⟨h4, List.nodup_singleton _, ?_⟩
        intro x hx hx2
        simp only [List.map_cons, List.map_nil, List.mem_singleton] at hx2
        subst hx2
        exact hnotg hx
  | ungroupStep g =>
    refine ⟨?_, ?_, h3, ?_⟩
    · intro i hi
      have hi2 : i ∈ (aerase st.groups g).map Prod.fst := hi
      rw [keys_aerase] at hi2
      exact h1 i (List.mem_of_mem_erase hi2)
    · intro i hi
      show i ∉ (aerase st.groups g).map Prod.fst
      rw [keys_aerase]
      intro hcon
      exact h2 i hi (List.mem_of_mem_erase hcon)
    · show ((aerase st.groups g).map Prod.fst).Nodup
      rw [keys_aerase]
      exact h4.erase g
  | input n p =>
    exact tablesInv_of_keys env (registerPortOps_keys env st n p).1
      (by rw [(registerPortOps_keys env st n p).2.1]) ⟨h1, h2, h3, h4⟩
  | output n p =>
    exact tablesInv_of_keys env (registerPortOps_keys env st n p).2.2.1
      (by rw [(registerPortOps_keys env st n p).2.2.2.1]) ⟨h1, h2, h3, h4⟩
  | param n p =>
    exact tablesInv_of_keys env (registerPortOps_keys env st n p).2.2.2.2.1
      (by rw [(registerPortOps_keys env st n p).2.2.2.2.2]) ⟨h1, h2, h3, h4⟩
  | connection fromP toP c =>
    exact tablesInv_of_keys env (registerConnection_keys env st fromP toP c).1
      (by rw [(registerConnection_keys env st fromP toP c).2]) ⟨h1, h2, h3, h4⟩
  | fwd k g f a =>
    exact tablesInv_of_keys env
      (by rw [(registerForward_frame st k g f a).1])
      (registerForward_frame st k g f a).2 ⟨h1, h2, h3, h4⟩
  | unfwd g f =>
    exact tablesInv_of_keys env
      (by rw [(unregisterForwardPort_frame st g f).1])
      (unregisterForwardPort_frame st g f).2 ⟨h1, h2, h3, h4⟩
  | activate fuel n =>
    exact tablesInv_of_keys env
      (by rw [(activateNode_tables env fuel st n).1])
      (by rw [(activateNode_tables env fuel st n).2]) ⟨h1, h2, h3, h4⟩
  | deactivate fuel n =>
    exact tablesInv_of_keys env
      (by rw [(deactivateNode_tables env fuel st n).1])
      (by rw [(deactivateNode_tables env fuel st n).2]) ⟨h1, h2, h3, h4⟩
  | create fuel p q =>
    exact tablesInv_of_keys env (createConnection_keys env fuel st p q).1
      (by rw [(createConnection_keys env fuel st p q).2]) ⟨h1, h2, h3, h4⟩

theorem tablesInv_reachable (env : Env) {st : GState} (hr : Reachable env st) :
    TablesInv env st := by
  induction hr with
  | init =>
    exact ⟨fun i hi => absurd hi (List.not_mem_nil i),
      fun i hi => absurd hi (List.not_mem_nil i), List.nodup_nil, List.nodup_nil⟩
  | step _ hstep ih => exact tablesInv_step env hstep ih

/-- C10: in every reachable registry state the node table and the group
table are keyed by disjoint item sets; `registerNode` refuses a `GroupItem`
with id -1 and no insertion; and after any `registerGroup` the item has no
plain-node descriptor (the fresh path erases it, and on the
already-registered early return the invariant already excludes one). -/
theorem c10_node_group_tables_disjoint (env : Env) (st : GState)
    (hr : Reachable env st) :
    (∀ i ∈ st.nodes.map Prod.fst, i ∉ st.groups.map Prod.fst) ∧
    (∀ n, env.isGroup n = true → registerNode env st n = (-1, st)) ∧
    (∀ g, alookup ((registerGroup st g).2).nodes g = none) := by
  obtain ⟨h1, h2, h3, h4⟩ := tablesInv_reachable env hr
  refine ⟨h2, ?_, ?_⟩
  · intro n hn
    unfold registerNode
    rw [hn]
    rfl
  · intro g
    cases hl : alookup st.groups g with
    | some d =>
      have h : registerGroup st g = (d.uid, st) := by
        unfold registerGroup
        rw [hl]
      rw [h]
      show alookup st.nodes g = none
      rw [alookup_eq_none_iff]
      intro hmem
      exact h2 g hmem (alookup_some_mem_keys hl)
    | none =>
      have h : (registerGroup st g).2 =
          { st with
            groups := st.groups ++ [(g, blankGroupDesc st.nextGroupId)]
            nextGroupId := st.nextGroupId + 1
            nodes := aerase st.nodes g } := by
        unfold registerGroup
        rw [hl]
        rfl
      rw [h]
      show alookup (aerase st.nodes g) g = none
      rw [alookup_eq_none_iff, keys_aerase]
      intro hmem
      exact (h3.mem_erase_iff.mp hmem).1 rfl

/-- Witness for C10: from the empty (reachable) registry, registering the
group item 5 through `registerNode` is refused with -1 and no change. -/
theorem c10_witness : registerNode envW initialState 5 = (-1, initialState) :=
  (c10_node_group_tables_disjoint envW initialState Reachable.init).2.1 5
    (by decide)

/-! ### C6: hasConnection on a forward port aggregates over the concrete
ports behind it -/

theorem not_isEmpty_flatMap {α β : Type} (f : α → List β) :
    ∀ L : List α, (!(L.flatMap f).isEmpty) = L.any (fun x => !(f x).isEmpty) := by
  intro L
  induction L with
  | nil => rfl
  | cons a L ih =>
    rw [List.flatMap_cons, List.any_cons]
    cases h : f a with
    | nil => simpa [h] using ih
    | cons b bs => simp [h]

theorem any_congr_mem {α : Type} {L : List α} {f g : α → Bool}
    (h : ∀ x ∈ L, f x = g x) : L.any f = L.any g := by
  induction L with
  | nil => rfl
  | cons a L ih =>
    rw [List.any_cons, List.any_cons, h a (List.mem_cons_self a L),
      ih (fun x hx => h x (List.mem_cons_of_mem a hx))]

theorem getConnections_fuel_stable_node (env : Env) (st : GState) (p : PortId)
    (h : (findNodeByName env st (env.portModule p)).isSome) :
    ∀ j, getConnections env (j + 1) st p = getConnections env 1 st p := by
  intro j
  obtain ⟨e, hf⟩ := Option.isSome_iff_exists.mp h
  show getConnections env (j + 1) st p = getConnections env (0 + 1) st p
  unfold getConnections
  rw [hf]

theorem getConnections_group_branch (env : Env) (fuel : Nat) (st : GState)
    (p : PortId) (h : findNodeByName env st (env.portModule p) = none) :
    getConnections env (fuel + 1) st p =
      (getAllForwardedPortsFromAPort st p).flatMap (getConnections env fuel st) := by
  show (match findNodeByName env st (env.portModule p) with
    | some e =>
      match alookup st.nodes e.1 with
      | none => []
      | some nd =>
        agetD nd.inputsDescriptor p ++
        agetD nd.outputsDescriptor p ++
        agetD nd.parametersInputsDescriptor p
    | none =>
      st.groups.flatMap (fun g =>
        (agetD g.2.forwardInputsDescriptor p ++
         agetD g.2.forwardOutputsDescriptor p ++
         agetD g.2.forwardParametersInputsDescriptor p).flatMap
          (getConnections env fuel st))) = _
  rw [h]
  unfold getAllForwardedPortsFromAPort
  rw [List.flatMap_assoc]

/-- C6: for a forward port `f` whose forwarding entries are the concrete
ports `backing` (none of which is itself a forward key, and each of which
resolves to a registered node by module name, while `f`'s own module name
resolves to no node), `hasConnection f` is true exactly when at least one
of the backing concrete ports has a nonempty connection list. -/
theorem c6_hasConnection_forward_aggregates (env : Env) (st : GState)
    (f : PortId) (backing : List PortId) (k : Nat)
    (hb : getAllForwardedPortsFromAPort st f = backing)
    (_hne : backing ≠ [])
    (hmod : findNodeByName env st (env.portModule f) = none)
    (hconc : ∀ p ∈ backing, getAllForwardedPortsFromAPort st p = [] ∧
      (findNodeByName env st (env.portModule p)).isSome) :
    hasConnection env (k + 2) st f =
      backing.any (fun p => !(getConnections env 1 st p).isEmpty) := by
  have hstep : ∀ p ∈ backing,
      hasConnection env (k + 1) st p = !(getConnections env 1 st p).isEmpty := by
    intro p hp
    show ((getAllForwardedPortsFromAPort st p).any (hasConnection env k st) ||
        !(getConnections env (k + 1) st p).isEmpty) =
      (!(getConnections env 1 st p).isEmpty)
    rw [(hconc p hp).1, getConnections_fuel_stable_node env st p (hconc p hp).2 k]
    rfl
  have hgc : getConnections env (k + 2) st f =
      backing.flatMap (getConnections env 1 st) := by
    rw [getConnections_group_branch env (k + 1) st f hmod, hb]
    exact List.flatMap_congr (fun p hp =>
      getConnections_fuel_stable_node env st p (hconc p hp).2 k)
  show ((getAllForwardedPortsFromAPort st f).any (hasConnection env (k + 1) st) ||
      !(getConnections env (k + 2) st f).isEmpty) =
    backing.any (fun p => !(getConnections env 1 st p).isEmpty)
  rw [hb, hgc, not_isEmpty_flatMap]
  rw [any_congr_mem hstep]
  rw [Bool.or_self]

/-- Group descriptor for the C6 witness: forward port 30 backed by the
concrete input port 10. -/
def gdW6 : GroupDescriptor :=
  { uid := 1
    memberNodes := []
    forwardInputsDescriptor := [(30, [10])]
    forwardOutputsDescriptor := []
    forwardParametersInputsDescriptor := [] }

/-- State for the C6 witness: the connected nodes of `stW2` plus group 5
whose forward port 30 stands for input port 10. -/
def stW6 : GState :=
  { stW2 with groups := [(5, gdW6)] }

/-- Witness for C6: on forward port 30 backed by the connected port 10,
the theorem applies and `hasConnection` reduces to the aggregation. -/
theorem c6_witness :
    hasConnection envW 2 stW6 30 =
      [(10 : PortId)].any (fun p => !(getConnections envW 1 stW6 p).isEmpty) :=
  c6_hasConnection_forward_aggregates envW stW6 30 [10] 0 (by decide)
    (by decide) (by decide) (by decide)

/-! ### C4: registerConnection classification (corrected) -/

theorem isOutput_false_of_anyInput (env : Env) (p : PortId)
    (h : isAnyInput env p = true) : isOutput env p = false := by
  unfold isAnyInput at h
  unfold isOutput
  cases horient : env.portOrient p <;> simp_all

theorem isOutput_true_of_not_anyInput (env : Env) (p : PortId)
    (h : isAnyInput env p = false) : isOutput env p = true := by
  unfold isAnyInput at h
  unfold isOutput
  cases horient : env.portOrient p <;> simp_all

/-- Environment for the C4 counterexample: two Output ports, 40 ("o1" on
node 1 "A") and 20 ("o2" on node 2 "B"). -/
def envC4 : Env :=
  { portName := fun p => if p = 40 then "o1" else "o2"
    portModule := fun p => if p = 40 then "A" else "B"
    portOrient := fun _ => .output
    portVisible := fun _ => true
    portParent := fun p => if p = 40 then 1 else 2
    nodeName := fun n => if n = 1 then "A" else "B"
    isGroup := fun _ => false
    nodeInputs := fun _ => []
    nodeOutputs := fun _ => []
    nodeParams := fun _ => [] }

/-- State for the C4 counterexample: both nodes registered, each owning its
output port with no connections. -/
def stC4 : GState :=
  { nodes :=
      [(1, { uid := 1
             inputsDescriptor := []
             outputsDescriptor := [(40, [])]
             parametersInputsDescriptor := [] }),
       (2, { uid := 2
             inputsDescriptor := []
             outputsDescriptor := [(20, [])]
             parametersInputsDescriptor := [] })]
    groups := []
    nextNodeId := 3
    nextGroupId := 1
    tags := fun _ => 1
    nodeActive := fun _ => false
    conns := []
    nextConnId := 0 }

/-- Counterexample to C4 as stated: ports 40 and 20 are both Output
oriented (so the pair cannot be classified into one sink and one source),
yet `registerConnection` is not a no-op — it mutates the descriptors,
storing connection 99 under the Output port 20 in node 2's *inputs*
descriptor. -/
theorem c4_counterexample :
    isOutput envC4 40 = true ∧ isOutput envC4 20 = true ∧
    (registerConnection envC4 stC4 40 20 99).nodes ≠ stC4.nodes ∧
    (alookup (registerConnection envC4 stC4 40 20 99).nodes 2).map
      (fun d => d.inputsDescriptor) = some [(20, [99])] := by
  decide

/-- C4 (amended): `registerConnection` is a no-op when both ports are
Input/Parameter oriented, or when either classified port's owner name
resolves to neither a node nor a group. Otherwise the in-side port is
`from` when `from` is Input/Parameter oriented and `to` otherwise — even
when `to` is an Output port, so a two-Output pair is not rejected — and,
when the two owners are distinct registered plain nodes, the connection is
appended under the classified out-side port in its owner's outputs
descriptor and under the classified in-side port in its owner's inputs
descriptor, with every other descriptor untouched. -/
theorem c4_registerConnection_classification (env : Env) (st : GState)
    (fromP toP : PortId) (c : ConnId) :
    (isAnyInput env fromP = true → isAnyInput env toP = true →
      registerConnection env st fromP toP c = st) ∧
    (∀ outSel inSel : PortId,
      outSel = (if isAnyInput env fromP then toP else fromP) →
      inSel = (if isAnyInput env fromP then fromP else toP) →
      ¬(isAnyInput env fromP = true ∧ isAnyInput env toP = true) →
      ((resolveOwner env st (env.portModule outSel) = none ∨
        resolveOwner env st (env.portModule inSel) = none) →
        registerConnection env st fromP toP c = st) ∧
      (∀ n1 n2 d1 d2,
        resolveOwner env st (env.portModule outSel) = some n1 →
        resolveOwner env st (env.portModule inSel) = some n2 →
        n1 ≠ n2 →
        alookup st.nodes n1 = some d1 →
        alookup st.nodes n2 = some d2 →
        alookup (registerConnection env st fromP toP c).nodes n1 =
          some { d1 with outputsDescriptor := pushConn d1.outputsDescriptor outSel c } ∧
        alookup (registerConnection env st fromP toP c).nodes n2 =
          some { d2 with inputsDescriptor := pushConn d2.inputsDescriptor inSel c } ∧
        (∀ m, m ≠ n1 → m ≠ n2 →
          alookup (registerConnection env st fromP toP c).nodes m =
            alookup st.nodes m) ∧
        (registerConnection env st fromP toP c).groups = st.groups)) := by
  constructor
  · intro hf ht
    have hto : isOutput env toP = false := isOutput_false_of_anyInput env toP ht
    simp [registerConnection, hf, hto]
  · intro outSel inSel hOutSel hInSel hnotboth
    have hred : registerConnection env st fromP toP c =
        (match resolveOwner env st (env.portModule outSel),
            resolveOwner env st (env.portModule inSel) with
        | some outNode, some inNode =>
          let st1 :=
            match alookup st.nodes outNode with
            | some _ =>
              { st with
                nodes := amodify st.nodes outNode (fun d =>
                  { d with outputsDescriptor := pushConn d.outputsDescriptor outSel c }) }
            | none => st
          match alookup st1.nodes inNode with
          | some _ =>
            { st1 with
              nodes := amodify st1.nodes inNode (fun d =>
                { d with inputsDescriptor := pushConn d.inputsDescriptor inSel c }) }
          | none => st1
        | _, _ => st) := by
      cases hf : isAnyInput env fromP with
      | true =>
        cases ht : isAnyInput env toP with
        | true => exact absurd ⟨hf, ht⟩ hnotboth
        | false =>
          have hout : isOutput env toP = true := isOutput_true_of_not_anyInput env toP ht
          have ho : outSel = toP := by rw [hOutSel, hf]; rfl
          have hi : inSel = fromP := by rw [hInSel, hf]; rfl
          subst ho
          subst hi
          simp [registerConnection, hf, hout]
      | false =>
        have hout : isOutput env fromP = true := isOutput_true_of_not_anyInput env fromP hf
        have ho : outSel = fromP := by rw [hOutSel, hf]; rfl
        have hi : inSel = toP := by rw [hInSel, hf]; rfl
        subst ho
        subst hi
        simp [registerConnection, hf, hout]
    constructor
    · intro hnone
      rw [hred]
      rcases hnone with hnone | hnone
      · rw [hnone]
      · rw [hnone]
        cases resolveOwner env st (env.portModule outSel) <;> rfl
    · intro n1 n2 d1 d2 hn1 hn2 hne hd1 hd2
      rw [hred, hn1, hn2]
      dsimp only
      rw [hd1]
      dsimp only
      have hlk : alookup (amodify st.nodes n1 (fun d =>
          { d with outputsDescriptor := pushConn d.outputsDescriptor outSel c })) n2 =
          some d2 := by
        rw [alookup_amodify_other _ _ _ _ (Ne.symm hne)]
        exact hd2
      rw [hlk]
      dsimp only
      refine ⟨?_, ?_, ?_, rfl⟩
      · rw [alookup_amodify_other _ _ _ _ hne, alookup_amodify_self, hd1]
        rfl
      · rw [alookup_amodify_self, hlk]
        rfl
      · intro m hm1 hm2
        rw [alookup_amodify_other _ _ _ _ hm2, alookup_amodify_other _ _ _ _ hm1]

/-- Witness for the amended C4: registering connection 101 from output
port 20 ("B.o") to input port 10 ("A.i") in `stW2` appends it under port
20 in node 2's outputs descriptor. -/
theorem c4_witness :
    alookup (registerConnection envW stW2 20 10 101).nodes 2 =
      some { uid := 2
             inputsDescriptor := []
             outputsDescriptor := pushConn [(20, [100])] 20 101
             parametersInputsDescriptor := [] } :=
  (((c4_registerConnection_classification envW stW2 20 10 101).2 20 10
    (by decide) (by decide) (by decide)).2 2 1
    { uid := 2
      inputsDescriptor := []
      outputsDescriptor := [(20, [100])]
      parametersInputsDescriptor := [] }
    { uid := 1
      inputsDescriptor := [(10, [100])]
      outputsDescriptor := []
      parametersInputsDescriptor := [] }
    (by decide) (by decide) (by decide) (by decide) (by decide)).1

/-! ### C5: grouping then ungrouping restores the topology and leaves no
forwarding entries -/

theorem alookup_append_self {β : Type} {m : List (Nat × β)} {k : Nat}
    (h : alookup m k = none) (b : β) : alookup (m ++ [(k, b)]) k = some b := by
  rw [alookup_append_right h]
  simp [alookup]

theorem aerase_not_mem {β : Type} {m : List (Nat × β)} {k : Nat}
    (h : alookup m k = none) : aerase m k = m := by
  induction m with
  | nil => rfl
  | cons e rest ih =>
    obtain ⟨a, b⟩ := e
    by_cases hk : a = k
    · simp [alookup, hk] at h
    · simp only [alookup, if_neg hk] at h
      simp [aerase, hk, ih h]

theorem registerPortOnOwner_noop (env : Env) (s : GState) (k : FwdKind)
    (owner : ItemId) (p : PortId) (h : alookup s.nodes owner = none) :
    registerPortOnOwner env s k owner p = s := by
  cases k <;>
    simp [registerPortOnOwner, registerInput, registerOutput, registerParameter, h]

theorem unregisterForwardPort_parts (s : GState) (g : ItemId) (f : PortId) :
    (unregisterForwardPort s g f).nodes = s.nodes ∧
    (unregisterForwardPort s g f).conns = s.conns := by
  unfold unregisterForwardPort
  cases alookup s.groups g <;> exact ⟨rfl, rfl⟩

/-- The descriptor rewrite `unregisterForwardPort` applies. -/
def gdDropFwd (gd : GroupDescriptor) (f : PortId) : GroupDescriptor :=
  { gd with
    forwardInputsDescriptor := aerase gd.forwardInputsDescriptor f
    forwardOutputsDescriptor := aerase gd.forwardOutputsDescriptor f
    forwardParametersInputsDescriptor := aerase gd.forwardParametersInputsDescriptor f }

theorem unregisterForwardPort_eq (s : GState) (g : ItemId) (f : PortId)
    (gd : GroupDescriptor) (hg : alookup s.groups g = some gd) :
    unregisterForwardPort s g f =
      { s with groups := amodify s.groups g (fun x => gdDropFwd x f) } := by
  unfold unregisterForwardPort
  rw [hg]
  rfl

theorem mirrorsFold_inv (env : Env) (g : ItemId)
    (N : List (ItemId × NodeDescriptor)) (C : List (ConnId × ConnData))
    (G0 : List (ItemId × GroupDescriptor))
    (hgg : alookup G0 g = none) (hgn : alookup N g = none) :
    ∀ (mirrors : List (FwdKind × PortId × PortId)) (s : GState)
      (gd : GroupDescriptor),
      s.nodes = N → s.conns = C → s.groups = G0 ++ [(g, gd)] →
      ∃ gd2,
        (mirrors.foldl (fun s2 m =>
          registerForward (registerPortOnOwner env s2 m.1 g m.2.1)
            m.1 g m.2.1 m.2.2) s).nodes = N ∧
        (mirrors.foldl (fun s2 m =>
          registerForward (registerPortOnOwner env s2 m.1 g m.2.1)
            m.1 g m.2.1 m.2.2) s).conns = C ∧
        (mirrors.foldl (fun s2 m =>
          registerForward (registerPortOnOwner env s2 m.1 g m.2.1)
            m.1 g m.2.1 m.2.2) s).groups = G0 ++ [(g, gd2)] := by
  intro mirrors
  induction mirrors with
  | nil =>
    intro s gd h1 h2 h3
    exact ⟨gd, h1, h2, h3⟩
  | cons m ms ih =>
    intro s gd h1 h2 h3
    rw [List.foldl_cons]
    have hnoop : registerPortOnOwner env s m.1 g m.2.1 = s :=
      registerPortOnOwner_noop env s m.1 g m.2.1 (by rw [h1]; exact hgn)
    rw [hnoop]
    have hgs : alookup s.groups g = some gd := by
      rw [h3]
      exact alookup_append_self hgg gd
    have hstep := registerForward_eq s m.1 g m.2.1 m.2.2 gd hgs
    refine ih (registerForward s m.1 g m.2.1 m.2.2) (gdPush gd m.1 m.2.1 m.2.2)
      ?_ ?_ ?_
    · rw [hstep]
      exact h1
    · rw [hstep]
      exact h2
    · rw [hstep]
      show amodify s.groups g (fun x => gdPush x m.1 m.2.1 m.2.2) = _
      rw [h3, amodify_append_last hgg]

theorem unfwdFold_inv (g : ItemId) (G0 : List (ItemId × GroupDescriptor))
    (hgg : alookup G0 g = none) :
    ∀ (L : List PortId) (s : GState) (gd : GroupDescriptor),
      s.groups = G0 ++ [(g, gd)] →
      ∃ gd2,
        (L.foldl (fun s2 p => unregisterForwardPort s2 g p) s).nodes = s.nodes ∧
        (L.foldl (fun s2 p => unregisterForwardPort s2 g p) s).conns = s.conns ∧
        (L.foldl (fun s2 p => unregisterForwardPort s2 g p) s).groups =
          G0 ++ [(g, gd2)] := by
  intro L
  induction L with
  | nil =>
    intro s gd h3
    exact ⟨gd, rfl, rfl, h3⟩
  | cons p L ih =>
    intro s gd h3
    rw [List.foldl_cons]
    have hgs : alookup s.groups g = some gd := by
      rw [h3]
      exact alookup_append_self hgg gd
    have hstep := unregisterForwardPort_eq s g p gd hgs
    obtain ⟨gd2, ha, hb, hc⟩ := ih (unregisterForwardPort s g p) (gdDropFwd gd p)
      (by
        rw [hstep]
        show amodify s.groups g (fun x => gdDropFwd x p) = _
        rw [h3, amodify_append_last hgg])
    refine ⟨gd2, ?_, ?_, hc⟩
    · rw [ha, hstep]
    · rw [hb, hstep]

theorem ungroupFolds_inv (env : Env) (g : ItemId)
    (G0 : List (ItemId × GroupDescriptor)) (hgg : alookup G0 g = none) :
    ∀ (members : List ItemId) (s : GState) (gd : GroupDescriptor),
      s.groups = G0 ++ [(g, gd)] →
      ∃ gd2,
        (members.foldl (fun s2 n =>
          ((env.nodeInputs n ++ env.nodeOutputs n) ++ env.nodeParams n).foldl
            (fun s3 p => unregisterForwardPort s3 g p) s2) s).nodes = s.nodes ∧
        (members.foldl (fun s2 n =>
          ((env.nodeInputs n ++ env.nodeOutputs n) ++ env.nodeParams n).foldl
            (fun s3 p => unregisterForwardPort s3 g p) s2) s).conns = s.conns ∧
        (members.foldl (fun s2 n =>
          ((env.nodeInputs n ++ env.nodeOutputs n) ++ env.nodeParams n).foldl
            (fun s3 p => unregisterForwardPort s3 g p) s2) s).groups =
          G0 ++ [(g, gd2)] := by
  intro members
  induction members with
  | nil =>
    intro s gd h3
    exact ⟨gd, rfl, rfl, h3⟩
  | cons n members ih =>
    intro s gd h3
    rw [List.foldl_cons]
    obtain ⟨gd1, ha1, hb1, hc1⟩ :=
      unfwdFold_inv g G0 hgg ((env.nodeInputs n ++ env.nodeOutputs n) ++ env.nodeParams n) s gd h3
    obtain ⟨gd2, ha2, hb2, hc2⟩ := ih
      (((env.nodeInputs n ++ env.nodeOutputs n) ++ env.nodeParams n).foldl
        (fun s3 p => unregisterForwardPort s3 g p) s) gd1 hc1
    exact ⟨gd2, by rw [ha2, ha1], by rw [hb2, hb1], hc2⟩

theorem getAllForwardedPorts_congr {s t : GState}
    (hg : s.groups = t.groups) (f : PortId) :
    getAllForwardedPortsFromAPort s f = getAllForwardedPortsFromAPort t f := by
  unfold getAllForwardedPortsFromAPort
  rw [hg]

theorem hasConnectionTo_congr (env : Env) (fuel : Nat) {s t : GState}
    (hn : s.nodes = t.nodes) (hg : s.groups = t.groups) (hc : s.conns = t.conns)
    (p q : PortId) :
    hasConnectionTo env fuel s p q = hasConnectionTo env fuel t p q := by
  unfold hasConnectionTo hasConnectionToNamed findConnection
  simp only [hc, getConnections_congr env fuel hn hg]

theorem registerGroup_fresh (s : GState) (g : ItemId)
    (h : alookup s.groups g = none) :
    (registerGroup s g).2.nodes = aerase s.nodes g ∧
    (registerGroup s g).2.groups = s.groups ++ [(g, blankGroupDesc s.nextGroupId)] ∧
    (registerGroup s g).2.conns = s.conns := by
  unfold registerGroup
  rw [h]
  exact ⟨rfl, rfl, rfl⟩

/-- C5: creating a group `g` over connected nodes (base-constructor node
registration, `registerGroup`, then the `mirrorPorts`/`mirrorParams`
forward registrations in `mirrors`) and then ungrouping it (the
`unregisterForwardPort` calls of `GroupItem::ungroup` followed by the
scheduled destruction's `unregisterGroup`/`unregisterNode`) restores the
node table, group table and connection set exactly, so `hasConnectionTo`
gives the same answer as before for every port pair, and every port that
had no forwarding entries before — in particular each forward port created
for the group — has none afterwards. -/
theorem c5_group_ungroup_roundtrip (env : Env) (st : GState) (g : ItemId)
    (mirrors : List (FwdKind × PortId × PortId)) (members : List ItemId)
    (hgn : alookup st.nodes g = none)
    (hgg : alookup st.groups g = none) :
    (ungroup env (groupCreate env st g mirrors) g members).nodes = st.nodes ∧
    (ungroup env (groupCreate env st g mirrors) g members).groups = st.groups ∧
    (ungroup env (groupCreate env st g mirrors) g members).conns = st.conns ∧
    (∀ f, getAllForwardedPortsFromAPort st f = [] →
      getAllForwardedPortsFromAPort
        (ungroup env (groupCreate env st g mirrors) g members) f = []) ∧
    (∀ fuel p q,
      hasConnectionTo env fuel (ungroup env (groupCreate env st g mirrors) g members) p q =
        hasConnectionTo env fuel st p q) := by
  have hC : registerNodeFromBaseCtor st g =
      (st.nextNodeId,
        { st with
          nodes := st.nodes ++ [(g, blankDesc st.nextNodeId)]
          nextNodeId := st.nextNodeId + 1 }) := by
    unfold registerNodeFromBaseCtor
    rw [hgn]
    rfl
  have hCnodes : (registerNodeFromBaseCtor st g).2.nodes =
      st.nodes ++ [(g, blankDesc st.nextNodeId)] := by rw [hC]
  have hCgroups : (registerNodeFromBaseCtor st g).2.groups = st.groups := by rw [hC]
  have hCconns : (registerNodeFromBaseCtor st g).2.conns = st.conns := by rw [hC]
  have hCnextG : (registerNodeFromBaseCtor st g).2.nextGroupId = st.nextGroupId := by
    rw [hC]
  have hfresh := registerGroup_fresh (registerNodeFromBaseCtor st g).2 g
    (by rw [hCgroups]; exact hgg)
  have hGnodes : (registerGroup (registerNodeFromBaseCtor st g).2 g).2.nodes =
      st.nodes := by
    rw [hfresh.1, hCnodes, aerase_append_last hgn]
  have hGgroups : (registerGroup (registerNodeFromBaseCtor st g).2 g).2.groups =
      st.groups ++ [(g, blankGroupDesc st.nextGroupId)] := by
    rw [hfresh.2.1, hCgroups, hCnextG]
  have hGconns : (registerGroup (registerNodeFromBaseCtor st g).2 g).2.conns =
      st.conns := by
    rw [hfresh.2.2, hCconns]
  obtain ⟨gdM, hMn, hMc, hMg⟩ := mirrorsFold_inv env g st.nodes st.conns st.groups
    hgg hgn mirrors ((registerGroup (registerNodeFromBaseCtor st g).2 g).2)
    (blankGroupDesc st.nextGroupId) hGnodes hGconns hGgroups
  have hMn2 : (groupCreate env st g mirrors).nodes = st.nodes := hMn
  have hMc2 : (groupCreate env st g mirrors).conns = st.conns := hMc
  have hMg2 : (groupCreate env st g mirrors).groups = st.groups ++ [(g, gdM)] := hMg
  obtain ⟨gdU, hUn, hUc, hUg⟩ := ungroupFolds_inv env g st.groups hgg members
    (groupCreate env st g mirrors) gdM hMg2
  have h1 : (ungroup env (groupCreate env st g mirrors) g members).nodes =
      st.nodes := by
    show aerase (members.foldl (fun s2 n =>
      ((env.nodeInputs n ++ env.nodeOutputs n) ++ env.nodeParams n).foldl
        (fun s3 p => unregisterForwardPort s3 g p) s2)
      (groupCreate env st g mirrors)).nodes g = st.nodes
    rw [hUn, hMn2, aerase_not_mem hgn]
  have h2 : (ungroup env (groupCreate env st g mirrors) g members).groups =
      st.groups := by
    show aerase (members.foldl (fun s2 n =>
      ((env.nodeInputs n ++ env.nodeOutputs n) ++ env.nodeParams n).foldl
        (fun s3 p => unregisterForwardPort s3 g p) s2)
      (groupCreate env st g mirrors)).groups g = st.groups
    rw [hUg, aerase_append_last hgg]
  have h3 : (ungroup env (groupCreate env st g mirrors) g members).conns =
      st.conns := by
    show (members.foldl (fun s2 n =>
      ((env.nodeInputs n ++ env.nodeOutputs n) ++ env.nodeParams n).foldl
        (fun s3 p => unregisterForwardPort s3 g p) s2)
      (groupCreate env st g mirrors)).conns = st.conns
    rw [hUc, hMc2]
  refine ⟨h1, h2, h3, ?_, ?_⟩
  · intro f hf
    rw [getAllForwardedPorts_congr h2 f]
    exact hf
  · intro fuel p q
    exact hasConnectionTo_congr env fuel h1 h2 h3 p q

/-- Witness for C5: grouping nodes 1 and 2 of `stW2` under group item 5
with two mirrored forward ports and ungrouping preserves the
`hasConnectionTo` answer for the connected pair (10, 20). -/
theorem c5_witness :
    hasConnectionTo envW 1
      (ungroup envW (groupCreate envW stW2 5
        [(FwdKind.finput, 30, 10), (FwdKind.foutput, 31, 20)]) 5 [1, 2]) 10 20 =
      hasConnectionTo envW 1 stW2 10 20 :=
  (c5_group_ungroup_roundtrip envW stW2 5
    [(FwdKind.finput, 30, 10), (FwdKind.foutput, 31, 20)] [1, 2]
    (by decide) (by decide)).2.2.2.2 1 10 20
